import Mathlib

/-!
Verification of the resume-ranking pipeline (Flask front end `app.py` and
Streamlit front end `streamlit.py`) against its natural-language
specification.  The development shallowly embeds the Python code: Python
values become the inductive `PyVal`, dictionaries become association lists
with Python's insertion-order update semantics, strings are lists of
characters, and fallible code returns `Except PyExc`.  The external LLM call
is opaque: each file's raw model output is a parameter of the per-file step,
exactly as the code treats `response.text`.
-/

set_option maxHeartbeats 1000000

/-- Exceptions that the embedded Python fragments can raise.  `typeError`
models `TypeError` (raised by `"Name" not in data` / item assignment on
non-dict values in `app.py`), `attributeError` models `AttributeError`
(raised by `parsed.get(...)` on non-dict values in `streamlit.py`). -/
inductive PyExc where
  | typeError
  | attributeError
deriving DecidableEq, Repr

/-- Python values as produced by `json.loads` and manipulated by both front
ends.  `null` is Python `None`; numbers keep Python's `int`/`float`
distinction (`float` idealised as the rational denoted by the JSON literal);
`dict` is an insertion-ordered association list, as Python dicts are. -/
inductive PyVal where
  | null
  | bool (b : Bool)
  | int (i : Int)
  | float (q : ℚ)
  | str (s : String)
  | list (xs : List PyVal)
  | dict (fields : List (String × PyVal))

/-- Lookup of a key in a Python dict (first binding wins; the embedding
keeps keys unique). -/
def dictGet : List (String × PyVal) → String → Option PyVal
  | [], _ => Option.none
  | (k, v) :: rest, key => if k = key then some v else dictGet rest key

/-- Python `d.get(key, default)`. -/
def dictGetD (d : List (String × PyVal)) (key : String) (dflt : PyVal) : PyVal :=
  (dictGet d key).getD dflt

/-- Python `key in d`. -/
def hasKey (d : List (String × PyVal)) (key : String) : Bool :=
  (dictGet d key).isSome

/-- Python `d[key] = v`: update in place keeping the key's position if
present, append at the end otherwise. -/
def dictSet : List (String × PyVal) → String → PyVal → List (String × PyVal)
  | [], key, v => [(key, v)]
  | (k, w) :: rest, key, v =>
    if k = key then (key, v) :: rest else (k, w) :: dictSet rest key v

/-- Python `d.setdefault(key, v)`. -/
def dictSetdefault (d : List (String × PyVal)) (key : String) (v : PyVal) :
    List (String × PyVal) :=
  if hasKey d key then d else d ++ [(key, v)]

/-- Decimal digit test (ASCII model of Python's `str.isdigit` on the
characters that occur in this pipeline). -/
def isDig (c : Char) : Bool :=
  decide ('0' ≤ c) && decide (c ≤ '9')

/-- Numeric value of a digit character. -/
def digitVal (c : Char) : Nat := c.toNat - 48

/-- Character for a single decimal digit. -/
def digCh : Nat → Char
  | 0 => '0'
  | 1 => '1'
  | 2 => '2'
  | 3 => '3'
  | 4 => '4'
  | 5 => '5'
  | 6 => '6'
  | 7 => '7'
  | 8 => '8'
  | 9 => '9'
  | _ + 10 => '9'

/-- Value of a string of decimal digits, most significant first. -/
def digitsToNat (cs : List Char) : Nat :=
  cs.foldl (fun a c => 10 * a + digitVal c) 0

/-- Fuel-driven decimal printer for naturals (fuel keeps the recursion
structural so closed terms reduce). -/
def natDigsF : Nat → Nat → List Char
  | 0, _ => []
  | fuel + 1, n =>
    if n < 10 then [digCh n] else natDigsF fuel (n / 10) ++ [digCh (n % 10)]

/-- Decimal digits of a natural number, as Python prints nonnegative
integers. -/
def natDigs (n : Nat) : List Char := natDigsF (n + 1) n

/-- Exactly `k` trailing decimal digits of `m` (left zero padded). -/
def padDigs : Nat → Nat → List Char
  | 0, _ => []
  | k + 1, m => padDigs k (m / 10) ++ [digCh (m % 10)]

/-- Whitespace characters stripped by Python's `str.strip()`. -/
def isWs (c : Char) : Bool :=
  c == ' ' || c == '\t' || c == '\n' || c == '\r' ||
    c == Char.ofNat 11 || c == Char.ofNat 12

/-- Python `s.strip()`. -/
def trimChars (cs : List Char) : List Char :=
  ((cs.dropWhile isWs).reverse.dropWhile isWs).reverse

/-- Python `s.replace("%", "")`: removal of every percent character. -/
def remPct (cs : List Char) : List Char :=
  cs.filter (fun c => c != '%')

/-- Fuel-driven core of `removeSeq`. -/
def removeSeqF : Nat → List Char → List Char → List Char
  | 0, _, cs => cs
  | _ + 1, _, [] => []
  | fuel + 1, pat, c :: cs =>
    if !pat.isEmpty && pat.isPrefixOf (c :: cs) then
      removeSeqF fuel pat (List.drop pat.length (c :: cs))
    else
      c :: removeSeqF fuel pat cs

/-- Python `s.replace(pat, "")`: left-to-right non-overlapping removal of
every occurrence of `pat`. -/
def removeSeq (pat cs : List Char) : List Char :=
  removeSeqF (cs.length + 1) pat cs

/-- Fuel-driven count of how often the prime `p` divides `n`. -/
def pcountF : Nat → Nat → Nat → Nat
  | 0, _, _ => 0
  | fuel + 1, p, n =>
    if 2 ≤ p ∧ p ∣ n ∧ n ≠ 0 then pcountF fuel p (n / p) + 1 else 0

/-- Smallest decimal exponent `k` with `q.den ∣ 10 ^ k`, for denominators of
the form `2 ^ a * 5 ^ b` (every binary floating-point value has one). -/
def decExpOf (q : ℚ) : Nat :=
  max (pcountF q.den 2 q.den) (pcountF q.den 5 q.den)

/-- Decimal rendering of a Python float, modelling `str(f)`/`repr(f)` for the
values this pipeline meets: sign, integer digits, a dot, then the fractional
digits (`85.0` for integral floats, `85.5` for halves, ...).  CPython switches
to exponent notation for extreme magnitudes; the positional form used here
denotes the same value, and every branch contains a dot, so such a string is
never accepted by `isdigit` and round-trips through `float(...)`. -/
def pyStrFloatChars (q : ℚ) : List Char :=
  let k := decExpOf q
  if q.den ∣ 10 ^ k then
    let a := q.num.natAbs * (10 ^ k / q.den)
    (if q.num < 0 then ['-'] else []) ++ natDigs (a / 10 ^ k) ++
      '.' :: (if k = 0 then ['0'] else padDigs k a)
  else
    (if q.num < 0 then ['-'] else []) ++ natDigs q.num.natAbs ++ '.' :: natDigs q.den

mutual

/-- Structural size of a `PyVal`, bounding container nesting depth. -/
def pySize : PyVal → Nat
  | .list xs => pySizeList xs + 1
  | .dict fs => pySizeFields fs + 1
  | _ => 1

/-- Structural size of a list of `PyVal`s. -/
def pySizeList : List PyVal → Nat
  | [] => 0
  | v :: vs => pySize v + pySizeList vs + 1

/-- Structural size of the field list of a `PyVal.dict`. -/
def pySizeFields : List (String × PyVal) → Nat
  | [] => 0
  | (_, v) :: fs => pySize v + pySizeFields fs + 1

end

/-- Fuel-driven Python `repr` (the fuel only bounds container nesting depth;
`pySize` always exceeds it, so the fuel-out branches are unreachable). -/
def pyReprF : Nat → PyVal → List Char
  | _, .null => "None".data
  | _, .bool true => "True".data
  | _, .bool false => "False".data
  | _, .int i => (if i < 0 then ['-'] else []) ++ natDigs i.natAbs
  | _, .float q => pyStrFloatChars q
  | _, .str s => Char.ofNat 39 :: s.data ++ [Char.ofNat 39]
  | 0, .list _ => "[...]".data
  | 0, .dict _ => "\x7b...\x7d".data
  | fuel + 1, .list xs =>
    '[' :: (List.intercalate ", ".data (xs.map (pyReprF fuel))) ++ [']']
  | fuel + 1, .dict fs =>
    '\x7b' :: (List.intercalate ", ".data (fs.map (fun kv =>
      Char.ofNat 39 :: kv.1.data ++ Char.ofNat 39 :: ':' :: ' ' :: pyReprF fuel kv.2))) ++ ['\x7d']

/-- Python `str(v)`: identity on strings, `repr` otherwise. -/
def pyStr (v : PyVal) : List Char :=
  match v with
  | .str s => s.data
  | .null => "None".data
  | .bool true => "True".data
  | .bool false => "False".data
  | .int i => (if i < 0 then ['-'] else []) ++ natDigs i.natAbs
  | .float q => pyStrFloatChars q
  | .list xs => pyReprF (pySizeList xs + 1) (.list xs)
  | .dict fs => pyReprF (pySizeFields fs + 1) (.dict fs)

/-- Parser model of Python's `float(string)` on finite literals: optional
sign, digits with an optional dot, optional exponent.  `inf`/`nan` literals
are folded into the failure case: in `safe_int_percent` they would make
`round` raise, which the bare `except` turns into the same result as a parse
failure. -/
def pyFloatMag (cs1 : List Char) : Option (Nat × Nat) :=
  let ip := cs1.takeWhile isDig
  let cs2 := cs1.dropWhile isDig
  let fp := if cs2.head? = some '.' then cs2.tail.takeWhile isDig else []
  let cs3 := if cs2.head? = some '.' then cs2.tail.dropWhile isDig else cs2
  if ip = [] ∧ fp = [] then Option.none
  else
    let mantN : Nat := digitsToNat ip * 10 ^ fp.length + digitsToNat fp
    let mantD : Nat := 10 ^ fp.length
    if cs3 = [] then some (mantN, mantD)
    else if cs3.head? = some 'e' ∨ cs3.head? = some 'E' then
      let r := cs3.tail
      let eneg := r.head? = some '-'
      let r1 := if r.head? = some '-' ∨ r.head? = some '+' then r.tail else r
      let ed := r1.takeWhile isDig
      if ed = [] ∨ r1.dropWhile isDig ≠ [] then Option.none
      else if eneg then some (mantN, mantD * 10 ^ digitsToNat ed)
      else some (mantN * 10 ^ digitsToNat ed, mantD)
    else Option.none

/-- Sign step of `float(...)`: strip an optional leading sign, parse the
magnitude with `pyFloatMag`, then build the signed rational. -/
def pyFloatCore (cs : List Char) : Option ℚ :=
  let neg := cs.head? = some '-'
  let cs1 := if cs.head? = some '-' ∨ cs.head? = some '+' then cs.tail else cs
  match pyFloatMag cs1 with
  | some nd => some (mkRat ((if neg then -1 else 1) * nd.1) nd.2)
  | Option.none => Option.none

/-- Python 3 `round` on a (finite) float: nearest integer, ties to even.
Phrased on `q.num`/`q.den` so that closed terms reduce in the kernel: with
`f = ⌊q⌋` the fractional part `q - f` compares to `1/2` exactly as
`2 * (q.num - f * q.den)` compares to `q.den`. -/
def roundTE (q : ℚ) : Int :=
  let f := q.num.fdiv q.den
  let t := 2 * (q.num - f * q.den)
  if t < (q.den : Int) then f
  else if (q.den : Int) < t then f + 1
  else if f % 2 = 0 then f else f + 1

/-- Embedding of `safe_int_percent` (streamlit.py lines 69-77): `None` maps
to `0`; otherwise strip and drop every percent sign from `str(val)`, coerce
with `float`, round half-to-even on success, return `0` on any failure. -/
def safe_int_percent (val : PyVal) : PyVal :=
  match val with
  | .null => .int 0
  | v =>
    match pyFloatCore (remPct (trimChars (pyStr v))) with
    | some q => .int (roundTE q)
    | Option.none => .int 0

/-- Embedding of the percentage coercion in `app.py` lines 119-123:
`str(data.get('MatchPercentage', '0')).replace('%', '')`, then `int(...)` if
the result `isdigit()`, else `0`. -/
def flaskPct (o : Option PyVal) : Int :=
  let s := remPct (pyStr (o.getD (.str "0")))
  if s ≠ [] ∧ s.all isDig then (digitsToNat s : Int) else 0

/-- JSON whitespace. -/
def skipWs (cs : List Char) : List Char :=
  cs.dropWhile (fun c => c == ' ' || c == '\t' || c == '\n' || c == '\r')

/-- Hexadecimal digit test. -/
def isHex (c : Char) : Bool :=
  isDig c || (decide ('a' ≤ c) && decide (c ≤ 'f')) || (decide ('A' ≤ c) && decide (c ≤ 'F'))

/-- Value of a hexadecimal digit. -/
def hexVal (c : Char) : Nat :=
  if isDig c then c.toNat - 48 else if decide ('a' ≤ c) then c.toNat - 87 else c.toNat - 55

/-- Single-character JSON string escapes. -/
def escMap : Char → Option Char
  | '"' => some '"'
  | '\\' => some '\\'
  | '/' => some '/'
  | 'b' => some (Char.ofNat 8)
  | 'f' => some (Char.ofNat 12)
  | 'n' => some '\n'
  | 'r' => some '\r'
  | 't' => some '\t'
  | _ => Option.none

/-- Body of a JSON string after the opening quote (models the string scanner
of Python's `json.loads`; surrogate-pair recombination for `\u` escapes is
not modelled). -/
def parseStrF : Nat → List Char → List Char → Option (String × List Char)
  | 0, _, _ => Option.none
  | fuel + 1, acc, cs =>
    match cs with
    | [] => Option.none
    | '"' :: rest => some (String.mk acc.reverse, rest)
    | '\\' :: 'u' :: h1 :: h2 :: h3 :: h4 :: rest =>
      if isHex h1 && isHex h2 && isHex h3 && isHex h4 then
        parseStrF fuel
          (Char.ofNat (((hexVal h1 * 16 + hexVal h2) * 16 + hexVal h3) * 16 + hexVal h4) :: acc)
          rest
      else Option.none
    | '\\' :: e :: rest =>
      match escMap e with
      | some c => parseStrF fuel (c :: acc) rest
      | Option.none => Option.none
    | c :: rest => parseStrF fuel (c :: acc) rest

/-- JSON number parser: optional minus, integer part without leading zeros,
optional fraction, optional exponent.  A plain integer literal yields a
Python `int`, anything with a fraction or exponent a `float`, exactly like
`json.loads`. -/
def parseNum (cs : List Char) : Option (PyVal × List Char) :=
  let neg := cs.head? = some '-'
  let cs1 := if neg then cs.tail else cs
  let ip := cs1.takeWhile isDig
  let cs2 := cs1.dropWhile isDig
  if ip = [] then Option.none
  else if ip.length > 1 ∧ ip.head? = some '0' then Option.none
  else
    let hasFrac := cs2.head? = some '.'
    let fp := if hasFrac then cs2.tail.takeWhile isDig else []
    let cs3 := if hasFrac then cs2.tail.dropWhile isDig else cs2
    if hasFrac ∧ fp = [] then Option.none
    else
      let sgn : Int := if neg then -1 else 1
      let hasExp := cs3.head? = some 'e' ∨ cs3.head? = some 'E'
      if ¬ hasFrac ∧ ¬ hasExp then some (.int (sgn * digitsToNat ip), cs2)
      else
        let mN : Int := sgn * (digitsToNat ip * 10 ^ fp.length + digitsToNat fp)
        let mD : Nat := 10 ^ fp.length
        if ¬ hasExp then some (.float (mkRat mN mD), cs3)
        else
          let r := cs3.tail
          let eneg := r.head? = some '-'
          let r1 := if r.head? = some '-' ∨ r.head? = some '+' then r.tail else r
          let ed := r1.takeWhile isDig
          if ed = [] then Option.none
          else
            let q := if eneg then mkRat mN (mD * 10 ^ digitsToNat ed)
                     else mkRat (mN * 10 ^ digitsToNat ed) mD
            some (.float q, r1.dropWhile isDig)

/-- Python dict construction from a member list: keys inserted left to
right, later duplicates overwrite in place. -/
def dictFromPairs (pairs : List (String × PyVal)) : List (String × PyVal) :=
  pairs.foldl (fun d kv => dictSet d kv.1 kv.2) []

mutual

/-- Fuel-driven JSON value parser modelling Python's `json.loads` grammar
(`NaN`/`Infinity` extensions are not modelled; no input in this development
uses them). -/
def parseValF : Nat → List Char → Option (PyVal × List Char)
  | 0, _ => Option.none
  | fuel + 1, cs =>
    match skipWs cs with
    | 'n' :: 'u' :: 'l' :: 'l' :: rest => some (.null, rest)
    | 't' :: 'r' :: 'u' :: 'e' :: rest => some (.bool true, rest)
    | 'f' :: 'a' :: 'l' :: 's' :: 'e' :: rest => some (.bool false, rest)
    | '"' :: rest =>
      match parseStrF (rest.length + 1) [] rest with
      | some (s, r) => some (.str s, r)
      | Option.none => Option.none
    | '[' :: rest =>
      (match skipWs rest with
       | ']' :: r2 => some (.list [], r2)
       | r1 =>
         match parseItemsF fuel r1 with
         | some (vs, r2) => some (.list vs, r2)
         | Option.none => Option.none)
    | '\x7b' :: rest =>
      (match skipWs rest with
       | '\x7d' :: r2 => some (.dict [], r2)
       | r1 =>
         match parseMembersF fuel r1 with
         | some (pairs, r2) => some (.dict (dictFromPairs pairs), r2)
         | Option.none => Option.none)
    | cs1 => parseNum cs1

/-- Comma-separated JSON array items up to the closing bracket. -/
def parseItemsF : Nat → List Char → Option (List PyVal × List Char)
  | 0, _ => Option.none
  | fuel + 1, cs =>
    match parseValF fuel cs with
    | Option.none => Option.none
    | some (v, r) =>
      match skipWs r with
      | ',' :: r2 =>
        (match parseItemsF fuel r2 with
         | some (vs, r3) => some (v :: vs, r3)
         | Option.none => Option.none)
      | ']' :: r2 => some ([v], r2)
      | _ => Option.none

/-- Comma-separated JSON object members up to the closing brace. -/
def parseMembersF : Nat → List Char → Option (List (String × PyVal) × List Char)
  | 0, _ => Option.none
  | fuel + 1, cs =>
    match skipWs cs with
    | '"' :: rest =>
      (match parseStrF (rest.length + 1) [] rest with
       | Option.none => Option.none
       | some (k, r) =>
         match skipWs r with
         | ':' :: r2 =>
           (match parseValF fuel r2 with
            | Option.none => Option.none
            | some (v, r3) =>
              match skipWs r3 with
              | ',' :: r4 =>
                (match parseMembersF fuel r4 with
                 | some (fs, r5) => some ((k, v) :: fs, r5)
                 | Option.none => Option.none)
              | '\x7d' :: r4 => some ([(k, v)], r4)
              | _ => Option.none)
         | _ => Option.none)
    | _ => Option.none

end

/-- Model of `json.loads`: parse one JSON value and require only whitespace
after it; any failure is the `json.JSONDecodeError` case. -/
def jsonLoads (cs : List Char) : Except Unit PyVal :=
  match parseValF (cs.length + 1) cs with
  | some (v, rest) => if skipWs rest = [] then .ok v else .error ()
  | Option.none => .error ()

/-- Substring from the first `\x7b` to the last `\x7d`, the effect of
`re.search(r'\x7b.*\x7d', s, re.DOTALL)` in both front ends; if the regex
has no match (no opening brace, or the last closing brace sits before the
first opening one) the text is left unchanged. -/
def extractBraces (cs : List Char) : List Char :=
  match cs.findIdx? (fun c => c == '\x7b'), cs.reverse.findIdx? (fun c => c == '\x7d') with
  | some i, some jr =>
    let j := cs.length - 1 - jr
    if i ≤ j then (cs.drop i).take (j - i + 1) else cs
  | _, _ => cs

/-- Code-fence cleaning shared by both front ends: drop `\x60\x60\x60json`
then `\x60\x60\x60`, then cut to the brace-delimited candidate. -/
def stripFences (cs : List Char) : List Char :=
  extractBraces (removeSeq "```".data (removeSeq "```json".data cs))

/-- Cleaning step of `app.py` lines 100-108 (no empty-input special case). -/
def flaskClean (cs : List Char) : List Char := stripFences cs

/-- Embedding of `clean_ai_json` (streamlit.py lines 79-86): empty raw text
becomes `"\x7b\x7d"`, otherwise fences are stripped and the brace-delimited
candidate extracted. -/
def clean_ai_json (cs : List Char) : List Char :=
  if cs = [] then "\x7b\x7d".data else stripFences cs

/-- Field list of the placeholder record appended by `app.py` lines 130-135
when `json.loads` raises: note that it carries neither keyword lists nor a
`Filename` field. -/
def flaskPlaceholderFields (filename : String) : List (String × PyVal) :=
  [("Name", .str filename), ("MatchPercentage", .int 0),
   ("Summary", .str "Error parsing AI response. View Terminal for details."),
   ("GlobalMatch", .str "N/A")]

/-- Placeholder record of `app.py` as a Python value. -/
def flaskPlaceholder (filename : String) : PyVal :=
  .dict (flaskPlaceholderFields filename)

/-- Field list of the placeholder dict assigned by streamlit.py lines
222-230 when `json.loads` raises; it then flows through the ordinary
backfill. -/
def stPlaceholderFields (name : String) : List (String × PyVal) :=
  [("Name", .str name), ("MatchPercentage", .int 0), ("GlobalMatch", .str "N/A"),
   ("MarketTier", .str ""), ("MatchedKeywords", .list []),
   ("MissingKeywords", .list []), ("Summary", .str "Error parsing AI response.")]

/-- Placeholder record of streamlit.py as a Python value. -/
def stPlaceholder (name : String) : PyVal :=
  .dict (stPlaceholderFields name)

/-- Field list of a Python value when it is a dict (empty otherwise). -/
def pyFields : PyVal → List (String × PyVal)
  | .dict fs => fs
  | _ => []

/-- Condition of streamlit.py line 232: `parsed.get("Name") in (None, "",
"Candidate Name")` (a missing key and an explicit JSON `null` both give
Python `None`). -/
def stNameTriggers (o : Option PyVal) : Bool :=
  match o with
  | Option.none => true
  | some .null => true
  | some (.str s) => s == "" || s == "Candidate Name"
  | some _ => false

/-- Line 232-233 of streamlit.py: `parsed["Name"] = name` when the parsed
name is missing, null, empty or the literal placeholder. -/
def stFill1 (d : List (String × PyVal)) (name : String) : List (String × PyVal) :=
  if stNameTriggers (dictGet d "Name") then dictSet d "Name" (.str name) else d

/-- Line 234: `parsed["Filename"] = name`. -/
def stFill2 (d : List (String × PyVal)) (name : String) : List (String × PyVal) :=
  dictSet (stFill1 d name) "Filename" (.str name)

/-- Line 235: `parsed["MatchPercentage"] =
safe_int_percent(parsed.get("MatchPercentage", 0))`. -/
def stFill3 (d : List (String × PyVal)) (name : String) : List (String × PyVal) :=
  dictSet (stFill2 d name) "MatchPercentage"
    (safe_int_percent (dictGetD (stFill2 d name) "MatchPercentage" (.int 0)))

/-- Line 236: `parsed.setdefault("GlobalMatch", parsed.get("GlobalMatch", "N/A"))`. -/
def stFill4 (d : List (String × PyVal)) (name : String) : List (String × PyVal) :=
  dictSetdefault (stFill3 d name) "GlobalMatch"
    (dictGetD (stFill3 d name) "GlobalMatch" (.str "N/A"))

/-- Line 237: `parsed.setdefault("MarketTier", parsed.get("MarketTier", ""))`. -/
def stFill5 (d : List (String × PyVal)) (name : String) : List (String × PyVal) :=
  dictSetdefault (stFill4 d name) "MarketTier"
    (dictGetD (stFill4 d name) "MarketTier" (.str ""))

/-- Line 238: `parsed.setdefault("MatchedKeywords", parsed.get("MatchedKeywords", []))`. -/
def stFill6 (d : List (String × PyVal)) (name : String) : List (String × PyVal) :=
  dictSetdefault (stFill5 d name) "MatchedKeywords"
    (dictGetD (stFill5 d name) "MatchedKeywords" (.list []))

/-- Line 239: `parsed.setdefault("MissingKeywords", parsed.get("MissingKeywords", []))`. -/
def stFill7 (d : List (String × PyVal)) (name : String) : List (String × PyVal) :=
  dictSetdefault (stFill6 d name) "MissingKeywords"
    (dictGetD (stFill6 d name) "MissingKeywords" (.list []))

/-- Line 240: `parsed.setdefault("Summary", parsed.get("Summary", ""))`. -/
def stFill (d : List (String × PyVal)) (name : String) : List (String × PyVal) :=
  dictSetdefault (stFill7 d name) "Summary"
    (dictGetD (stFill7 d name) "Summary" (.str ""))

/-- Field backfill of streamlit.py lines 232-240.  On a non-dict parse
result `parsed.get` raises `AttributeError`, which no handler catches. -/
def streamlitBackfill (parsed : PyVal) (name : String) : Except PyExc PyVal :=
  match parsed with
  | .dict d => .ok (.dict (stFill d name))
  | _ => .error .attributeError

/-- Condition of app.py line 114: `"Name" not in data or data["Name"] ==
"Candidate Name"` on a dict (an explicit empty or null `Name` does NOT
trigger the replacement here, unlike in the streamlit front end). -/
def flaskNameTriggers (o : Option PyVal) : Bool :=
  match o with
  | Option.none => true
  | some (.str s) => s == "Candidate Name"
  | some _ => false

/-- Lines 114-115 of app.py: `data["Name"] = file.filename` when absent or
equal to the placeholder. -/
def fbFill1 (d : List (String × PyVal)) (filename : String) : List (String × PyVal) :=
  if flaskNameTriggers (dictGet d "Name") then dictSet d "Name" (.str filename) else d

/-- Line 116: `data['Filename'] = file.filename`. -/
def fbFill2 (d : List (String × PyVal)) (filename : String) : List (String × PyVal) :=
  dictSet (fbFill1 d filename) "Filename" (.str filename)

/-- Lines 119-123: the integer coercion of `MatchPercentage`. -/
def fbFill (d : List (String × PyVal)) (filename : String) : List (String × PyVal) :=
  dictSet (fbFill2 d filename) "MatchPercentage"
    (.int (flaskPct (dictGet (fbFill2 d filename) "MatchPercentage")))

/-- Field standardisation of app.py lines 113-123.  On a non-dict parse
result the membership test or the item assignment raises `TypeError`, which
only the outer route-level handler sees. -/
def flaskBackfill (data : PyVal) (filename : String) : Except PyExc PyVal :=
  match data with
  | .dict d => .ok (.dict (fbFill d filename))
  | _ => .error .typeError

/-- Per-file body of the `analyze` loop in app.py lines 86-135, with the
extracted text and the raw LLM output as parameters (extraction and the LLM
call are opaque to this step).  Returns the records appended for this file,
or the uncaught exception. -/
def flaskProcessOne (filename text raw : String) : Except PyExc (List PyVal) :=
  if filename = "" then .ok []
  else if text = "" then .ok []
  else
    match jsonLoads (flaskClean raw.data) with
    | .error _ => .ok [flaskPlaceholder filename]
    | .ok data =>
      match flaskBackfill data filename with
      | .error e => .error e
      | .ok d => .ok [d]

/-- Lower-cased name ends in one of the accepted extensions (streamlit.py
lines 192-208). -/
def supportedExt (name : String) : Bool :=
  let low := name.data.map Char.toLower
  ".pdf".data.isSuffixOf low || ".docx".data.isSuffixOf low ||
    ".txt".data.isSuffixOf low || ".doc".data.isSuffixOf low

/-- Per-file body of the streamlit run handler (streamlit.py lines 178-242),
with the extracted text and raw LLM output as parameters. -/
def streamlitProcessOne (name : String) (size : Nat) (text raw : String) :
    Except PyExc (List PyVal) :=
  if size > 10485760 then .ok []
  else if ¬ supportedExt name then .ok []
  else if text = "" ∨ trimChars text.data = [] then .ok []
  else
    let parsed :=
      match jsonLoads (clean_ai_json raw.data) with
      | .ok p => p
      | .error _ => stPlaceholder name
    match streamlitBackfill parsed name with
    | .error e => .error e
    | .ok d => .ok [d]

/-- Sort key of both front ends: `x.get('MatchPercentage', 0)`.  Every
record the loops append stores an integer there; the fallback keeps the
function total. -/
def keyOf (r : PyVal) : Int :=
  match r with
  | .dict d =>
    match dictGet d "MatchPercentage" with
    | some (.int n) => n
    | _ => 0
  | _ => 0

/-- Embedding of `results.sort(key=..., reverse=True)` (app.py line 138,
streamlit.py line 249): a stable sort, descending on the key. -/
def rank (rs : List PyVal) : List PyVal :=
  rs.mergeSort (fun a b => decide (keyOf b ≤ keyOf a))

/-- HTTP-level outcomes of the `/analyze` route in `app.py`. -/
inductive FlaskResp where
  | badRequest
  | serverError (e : PyExc)
  | okJson (rs : List PyVal)

/-- Sequential per-file loop of `analyze`; an uncaught exception aborts the
remaining files. -/
def flaskLoop : List (String × String × String) → Except PyExc (List PyVal)
  | [] => .ok []
  | (n, t, r) :: rest =>
    match flaskProcessOne n t r with
    | .error e => .error e
    | .ok rs =>
      match flaskLoop rest with
      | .error e => .error e
      | .ok more => .ok (rs ++ more)

/-- Embedding of the `analyze` route (app.py lines 75-144): `jd` is
`request.form.get('jd')` (`Option`, falsy when absent or empty), each file
is (filename, extracted text, raw LLM output).  The outer `except` turns any
uncaught per-file exception into a batch-wide 500 response. -/
def flaskAnalyze (jd : Option String) (files : List (String × String × String)) : FlaskResp :=
  if jd.getD "" = "" ∨ files = [] then .badRequest
  else
    match flaskLoop files with
    | .error e => .serverError e
    | .ok rs => .okJson (rank rs)

/-- Outcomes of the streamlit run-button handler. -/
inductive StResp where
  | noFilesError
  | crashed (e : PyExc)
  | noResults
  | ranked (rs : List PyVal)

/-- Sequential per-file loop of the streamlit handler. -/
def stLoop : List (String × Nat × String × String) → Except PyExc (List PyVal)
  | [] => .ok []
  | (n, sz, t, r) :: rest =>
    match streamlitProcessOne n sz t r with
    | .error e => .error e
    | .ok rs =>
      match stLoop rest with
      | .error e => .error e
      | .ok more => .ok (rs ++ more)

/-- Embedding of the run-button handler (streamlit.py lines 167-249): a
missing job description only produces a warning and processing continues;
only the no-files case stops before per-file work. -/
def streamlitRun (jd : String) (files : List (String × Nat × String × String)) : StResp :=
  let _ := jd
  if files = [] then .noFilesError
  else
    match stLoop files with
    | .error e => .crashed e
    | .ok rs => if rs.isEmpty then .noResults else .ranked (rank rs)

/-- Outcome of `PyPDF2.PdfReader` plus the page loop, abstracted: either the
library raises, or it yields per-page `extract_text()` results (`None`
possible for empty pages). -/
inductive PdfOutcome where
  | failure (msg : String)
  | pages (ps : List (Option String))

/-- Embedding of `extract_text_from_pdf` (app.py lines 60-69): concatenate
`page.extract_text() or ""` over the pages; `except Exception` turns any
reader failure into `""`.  The `Except` result type records that the caller
can never see an exception. -/
def extract_text_from_pdf (r : PdfOutcome) : Except PyExc String :=
  match r with
  | .failure _ => .ok ""
  | .pages ps => .ok (ps.foldl (fun acc p => acc ++ p.getD "") "")

/-- Embedding of `extract_text_from_pdf_bytes` (streamlit.py lines 31-43):
identical recovery behaviour, with the warning display swallowed by its own
inner handler. -/
def extract_text_from_pdf_bytes (r : PdfOutcome) : Except PyExc String :=
  match r with
  | .failure _ => .ok ""
  | .pages ps => .ok (ps.foldl (fun acc p => acc ++ p.getD "") "")

/-! ### Dictionary lemmas -/

theorem dictGet_dictSet_self (d : List (String × PyVal)) (k : String) (v : PyVal) :
    dictGet (dictSet d k v) k = some v := by
  induction d with
  | nil => simp [dictSet, dictGet]
  | cons kv rest ih =>
    obtain ⟨k1, v1⟩ := kv
    by_cases h : k1 = k
    · simp [dictSet, h, dictGet]
    · simp [dictSet, h, dictGet, ih]

theorem dictGet_dictSet_ne (d : List (String × PyVal)) (k k' : String) (v : PyVal)
    (h : k' ≠ k) : dictGet (dictSet d k v) k' = dictGet d k' := by
  have h' : ¬ k = k' := fun he => h he.symm
  induction d with
  | nil => simp [dictSet, dictGet, h']
  | cons kv rest ih =>
    obtain ⟨k1, v1⟩ := kv
    by_cases h1 : k1 = k
    · subst h1
      simp [dictSet, dictGet, h']
    · simp [dictSet, h1, dictGet, ih]

theorem dictGet_append (d1 d2 : List (String × PyVal)) (k : String) :
    dictGet (d1 ++ d2) k =
      if (dictGet d1 k).isSome then dictGet d1 k else dictGet d2 k := by
  induction d1 with
  | nil => simp [dictGet]
  | cons kv rest ih =>
    obtain ⟨k1, v1⟩ := kv
    by_cases h : k1 = k
    · simp [dictGet, h]
    · simp [dictGet, h, ih]

theorem dictGet_setdefault_self (d : List (String × PyVal)) (k : String) (v : PyVal) :
    dictGet (dictSetdefault d k v) k = some ((dictGet d k).getD v) := by
  unfold dictSetdefault hasKey
  by_cases h : (dictGet d k).isSome
  · rw [if_pos h]
    obtain ⟨w, hw⟩ := Option.isSome_iff_exists.mp h
    simp [hw]
  · rw [if_neg h]
    rw [Option.not_isSome_iff_eq_none] at h
    rw [dictGet_append, h]
    simp [dictGet]

theorem dictGet_setdefault_ne (d : List (String × PyVal)) (k k' : String) (v : PyVal)
    (h : k' ≠ k) : dictGet (dictSetdefault d k v) k' = dictGet d k' := by
  have h' : ¬ k = k' := fun he => h he.symm
  unfold dictSetdefault
  by_cases hk : hasKey d k
  · rw [if_pos hk]
  · rw [if_neg hk, dictGet_append]
    by_cases h2 : (dictGet d k').isSome
    · rw [if_pos h2]
    · rw [if_neg h2]
      rw [Option.not_isSome_iff_eq_none] at h2
      simp [dictGet, h', h2]

/-! ### Digit-printing lemmas -/

theorem isDig_digCh (n : Nat) : isDig (digCh n) = true := by
  rcases n with _|_|_|_|_|_|_|_|_|_|n <;> rfl

theorem digitVal_digCh (n : Nat) (h : n < 10) : digitVal (digCh n) = n := by
  interval_cases n <;> rfl

theorem ne_of_isDig {c x : Char} (h : isDig c = true) (hx : isDig x = false) : c ≠ x := by
  intro he
  rw [he, hx] at h
  exact Bool.false_ne_true h

theorem isWs_eq_false_of_isDig {c : Char} (h : isDig c = true) : isWs c = false := by
  cases hc : isWs c with
  | false => rfl
  | true =>
    exfalso
    have : c = ' ' ∨ c = '\t' ∨ c = '\n' ∨ c = '\r' ∨ c = Char.ofNat 11 ∨ c = Char.ofNat 12 := by
      simpa [isWs, beq_iff_eq, or_assoc] using hc
    rcases this with h1 | h1 | h1 | h1 | h1 | h1 <;> subst h1 <;> exact absurd h (by decide)

theorem digitsToNat_append_digit (cs : List Char) (c : Char) :
    digitsToNat (cs ++ [c]) = 10 * digitsToNat cs + digitVal c := by
  simp [digitsToNat, List.foldl_append]

theorem digitsToNat_natDigsF (fuel n : Nat) (h : n < fuel) :
    digitsToNat (natDigsF fuel n) = n := by
  induction fuel generalizing n with
  | zero => omega
  | succ fuel ih =>
    rw [natDigsF]
    by_cases h10 : n < 10
    · rw [if_pos h10]
      simp [digitsToNat, digitVal_digCh n h10]
    · rw [if_neg h10]
      have hlt : n / 10 < n := Nat.div_lt_self (by omega) (by omega)
      rw [digitsToNat_append_digit, ih (n / 10) (by omega),
        digitVal_digCh _ (Nat.mod_lt _ (by omega))]
      omega

theorem digitsToNat_natDigs (n : Nat) : digitsToNat (natDigs n) = n :=
  digitsToNat_natDigsF (n + 1) n (by omega)

theorem natDigsF_all_digits : ∀ (fuel n : Nat), ∀ c ∈ natDigsF fuel n, isDig c = true := by
  intro fuel
  induction fuel with
  | zero => intro n c hc; simp [natDigsF] at hc
  | succ fuel ih =>
    intro n c hc
    rw [natDigsF] at hc
    by_cases h10 : n < 10
    · rw [if_pos h10] at hc
      simp at hc
      rw [hc]
      exact isDig_digCh n
    · rw [if_neg h10] at hc
      rcases List.mem_append.mp hc with h1 | h1
      · exact ih _ _ h1
      · simp at h1
        rw [h1]
        exact isDig_digCh _

theorem natDigs_all_digits (n : Nat) : ∀ c ∈ natDigs n, isDig c = true :=
  natDigsF_all_digits (n + 1) n

theorem natDigs_ne_nil (n : Nat) : natDigs n ≠ [] := by
  rw [natDigs, natDigsF]
  by_cases h10 : n < 10
  · rw [if_pos h10]; simp
  · rw [if_neg h10]; simp

theorem padDigs_length (k m : Nat) : (padDigs k m).length = k := by
  induction k generalizing m with
  | zero => rfl
  | succ k ih => simp [padDigs, ih]

theorem padDigs_all_digits : ∀ (k m : Nat), ∀ c ∈ padDigs k m, isDig c = true := by
  intro k
  induction k with
  | zero => intro m c hc; simp [padDigs] at hc
  | succ k ih =>
    intro m c hc
    rcases List.mem_append.mp hc with h1 | h1
    · exact ih _ _ h1
    · simp at h1
      rw [h1]
      exact isDig_digCh _

theorem mod_ten_pow_succ (m k : Nat) :
    m % 10 ^ (k + 1) = 10 * (m / 10 % 10 ^ k) + m % 10 := by
  have h1 : m % (10 * 10 ^ k) / 10 = m / 10 % 10 ^ k := Nat.mod_mul_right_div_self m 10 (10 ^ k)
  have h2 : m % (10 * 10 ^ k) % 10 = m % 10 := Nat.mod_mod_of_dvd m ⟨10 ^ k, rfl⟩
  have h3 : 10 * (m % (10 * 10 ^ k) / 10) + m % (10 * 10 ^ k) % 10 = m % (10 * 10 ^ k) :=
    Nat.div_add_mod _ 10
  have h4 : 10 ^ (k + 1) = 10 * 10 ^ k := by rw [pow_succ]; ring
  rw [h4]
  omega

theorem digitsToNat_padDigs : ∀ (k m : Nat), digitsToNat (padDigs k m) = m % 10 ^ k := by
  intro k
  induction k with
  | zero => intro m; simp [padDigs, digitsToNat, Nat.mod_one]
  | succ k ih =>
    intro m
    rw [padDigs, digitsToNat_append_digit, ih,
      digitVal_digCh _ (Nat.mod_lt _ (by omega)), mod_ten_pow_succ]

/-! ### Scanning lemmas -/

theorem takeWhile_append_all {p : Char → Bool} {xs ys : List Char}
    (h : ∀ c ∈ xs, p c = true) :
    (xs ++ ys).takeWhile p = xs ++ ys.takeWhile p := by
  induction xs with
  | nil => simp
  | cons x xs ih =>
    simp only [List.cons_append]
    rw [List.takeWhile_cons_of_pos (h x (by simp)), ih (fun c hc => h c (by simp [hc]))]

theorem dropWhile_append_all {p : Char → Bool} {xs ys : List Char}
    (h : ∀ c ∈ xs, p c = true) :
    (xs ++ ys).dropWhile p = ys.dropWhile p := by
  induction xs with
  | nil => simp
  | cons x xs ih =>
    simp only [List.cons_append]
    rw [List.dropWhile_cons_of_pos (h x (by simp)), ih (fun c hc => h c (by simp [hc]))]

theorem takeWhile_all {p : Char → Bool} {xs : List Char} (h : ∀ c ∈ xs, p c = true) :
    xs.takeWhile p = xs := by
  induction xs with
  | nil => rfl
  | cons x xs ih =>
    rw [List.takeWhile_cons_of_pos (h x (by simp)), ih (fun c hc => h c (by simp [hc]))]

theorem dropWhile_all {p : Char → Bool} {xs : List Char} (h : ∀ c ∈ xs, p c = true) :
    xs.dropWhile p = [] := by
  induction xs with
  | nil => rfl
  | cons x xs ih =>
    rw [List.dropWhile_cons_of_pos (h x (by simp)), ih (fun c hc => h c (by simp [hc]))]

theorem dropWhile_none {p : Char → Bool} {xs : List Char} (h : ∀ c ∈ xs, p c = false) :
    xs.dropWhile p = xs := by
  cases xs with
  | nil => rfl
  | cons x xs =>
    rw [List.dropWhile_cons_of_neg]
    simp [h x (by simp)]

theorem trimChars_of_no_ws {cs : List Char} (h : ∀ c ∈ cs, isWs c = false) :
    trimChars cs = cs := by
  unfold trimChars
  rw [dropWhile_none h, dropWhile_none (fun c hc => h c (List.mem_reverse.mp hc)),
    List.reverse_reverse]

theorem remPct_of_no_pct {cs : List Char} (h : ∀ c ∈ cs, c ≠ '%') :
    remPct cs = cs := by
  unfold remPct
  rw [List.filter_eq_self.mpr]
  intro a ha
  simp [bne_iff_ne, h a ha]

/-! ### Behaviour of the `float(...)` model on printed numbers -/

theorem pyFloatMag_shape (ids fds : List Char)
    (h1 : ∀ c ∈ ids, isDig c = true) (h2 : ∀ c ∈ fds, isDig c = true)
    (hne : ids ≠ []) :
    pyFloatMag (ids ++ '.' :: fds) =
      some (digitsToNat ids * 10 ^ fds.length + digitsToNat fds, 10 ^ fds.length) := by
  obtain ⟨d, ds, hd⟩ := List.exists_cons_of_ne_nil hne
  subst hd
  have hdig : isDig d = true := h1 d (by simp)
  have hds : ∀ c ∈ ds, isDig c = true := fun c hc => h1 c (by simp [hc])
  have htw : List.takeWhile isDig (d :: ds ++ '.' :: fds) = d :: ds := by
    rw [List.cons_append, List.takeWhile_cons_of_pos hdig, takeWhile_append_all hds,
      List.takeWhile_cons_of_neg (by decide)]
    simp
  have hdw : List.dropWhile isDig (d :: ds ++ '.' :: fds) = '.' :: fds := by
    rw [List.cons_append, List.dropWhile_cons_of_pos hdig, dropWhile_append_all hds,
      List.dropWhile_cons_of_neg (by decide)]
  simp only [pyFloatMag, htw, hdw, List.head?_cons, List.tail_cons]
  simp [takeWhile_all h2, dropWhile_all h2]

theorem pyFloatMag_digits (ids : List Char)
    (h1 : ∀ c ∈ ids, isDig c = true) (hne : ids ≠ []) :
    pyFloatMag ids = some (digitsToNat ids, 1) := by
  obtain ⟨d, ds, hd⟩ := List.exists_cons_of_ne_nil hne
  subst hd
  have hdig : isDig d = true := h1 d (by simp)
  have hds : ∀ c ∈ ds, isDig c = true := fun c hc => h1 c (by simp [hc])
  have htw : List.takeWhile isDig (d :: ds) = d :: ds := by
    rw [List.takeWhile_cons_of_pos hdig, takeWhile_all hds]
  have hdw : List.dropWhile isDig (d :: ds) = [] := by
    rw [List.dropWhile_cons_of_pos hdig, dropWhile_all hds]
  simp only [pyFloatMag, htw, hdw]
  simp [digitsToNat]

theorem pyFloatCore_neg_cons (rest : List Char) :
    pyFloatCore ('-' :: rest) =
      match pyFloatMag rest with
      | some nd => some (mkRat (-(nd.1 : Int)) nd.2)
      | Option.none => Option.none := by
  cases h : pyFloatMag rest with
  | none => simp [pyFloatCore, h]
  | some nd => simp [pyFloatCore, h, neg_one_mul]

theorem pyFloatCore_not_sign (cs : List Char) (h1 : cs.head? ≠ some '-')
    (h2 : cs.head? ≠ some '+') :
    pyFloatCore cs =
      match pyFloatMag cs with
      | some nd => some (mkRat (nd.1 : Int) nd.2)
      | Option.none => Option.none := by
  cases h : pyFloatMag cs with
  | none => simp [pyFloatCore, h1, h2, h]
  | some nd => simp [pyFloatCore, h1, h2, h]

theorem head_digit_of_all {ids : List Char} (h1 : ∀ c ∈ ids, isDig c = true)
    (hne : ids ≠ []) {x : Char} (hx : isDig x = false) :
    ∀ (ys : List Char), (ids ++ ys).head? ≠ some x := by
  intro ys
  obtain ⟨d, ds, hd⟩ := List.exists_cons_of_ne_nil hne
  subst hd
  simp only [List.cons_append, List.head?_cons]
  exact fun hc => ne_of_isDig (h1 d (by simp)) hx (Option.some.inj hc)

theorem pyFloatCore_shape (ids fds : List Char)
    (h1 : ∀ c ∈ ids, isDig c = true) (h2 : ∀ c ∈ fds, isDig c = true)
    (hne : ids ≠ []) :
    pyFloatCore (ids ++ '.' :: fds) =
      some (mkRat ((digitsToNat ids * 10 ^ fds.length + digitsToNat fds : Nat) : Int)
        (10 ^ fds.length)) := by
  rw [pyFloatCore_not_sign _ (head_digit_of_all h1 hne (by decide) _)
      (head_digit_of_all h1 hne (by decide) _),
    pyFloatMag_shape ids fds h1 h2 hne]

theorem pyFloatCore_neg_shape (ids fds : List Char)
    (h1 : ∀ c ∈ ids, isDig c = true) (h2 : ∀ c ∈ fds, isDig c = true)
    (hne : ids ≠ []) :
    pyFloatCore ('-' :: (ids ++ '.' :: fds)) =
      some (mkRat (-((digitsToNat ids * 10 ^ fds.length + digitsToNat fds : Nat) : Int))
        (10 ^ fds.length)) := by
  rw [pyFloatCore_neg_cons, pyFloatMag_shape ids fds h1 h2 hne]

theorem pyFloatCore_digits (ids : List Char)
    (h1 : ∀ c ∈ ids, isDig c = true) (hne : ids ≠ []) :
    pyFloatCore ids = some (mkRat (digitsToNat ids : Int) 1) := by
  have hh : ids = ids ++ [] := by simp
  rw [pyFloatCore_not_sign _ (by rw [hh]; exact head_digit_of_all h1 hne (by decide) [])
      (by rw [hh]; exact head_digit_of_all h1 hne (by decide) []),
    pyFloatMag_digits ids h1 hne]

theorem pyFloatCore_neg_digits (ids : List Char)
    (h1 : ∀ c ∈ ids, isDig c = true) (hne : ids ≠ []) :
    pyFloatCore ('-' :: ids) = some (mkRat (-(digitsToNat ids : Int)) 1) := by
  rw [pyFloatCore_neg_cons, pyFloatMag_digits ids h1 hne]

/-! ### Character classification of printed floats -/

theorem classify_aux (sgn : List Char) (m : Nat) (tail : List Char)
    (hs : sgn = ['-'] ∨ sgn = []) (ht : ∀ c ∈ tail, isDig c = true) :
    ∀ c ∈ sgn ++ natDigs m ++ '.' :: tail, isDig c = true ∨ c = '-' ∨ c = '.' := by
  intro c hc
  rcases hs with h | h <;> subst h <;>
    simp only [List.mem_append, List.mem_cons, List.mem_singleton, List.not_mem_nil,
      false_or, List.nil_append] at hc
  · have hd : c = '-' ∨ c ∈ natDigs m ∨ c = '.' ∨ c ∈ tail := by tauto
    rcases hd with h | h | h | h
    · exact Or.inr (Or.inl h)
    · exact Or.inl (natDigs_all_digits m c h)
    · exact Or.inr (Or.inr h)
    · exact Or.inl (ht c h)
  · have hd : c ∈ natDigs m ∨ c = '.' ∨ c ∈ tail := by tauto
    rcases hd with h | h | h
    · exact Or.inl (natDigs_all_digits m c h)
    · exact Or.inr (Or.inr h)
    · exact Or.inl (ht c h)

theorem fracBlock_all_digits (k a : Nat) :
    ∀ c ∈ (if k = 0 then ['0'] else padDigs k a), isDig c = true := by
  split
  · intro x hx
    simp at hx
    rw [hx]
    decide
  · exact padDigs_all_digits _ _

theorem pyStrFloatChars_classify (q : ℚ) :
    ∀ c ∈ pyStrFloatChars q, isDig c = true ∨ c = '-' ∨ c = '.' := by
  intro c hc
  simp only [pyStrFloatChars] at hc
  by_cases hdvd : q.den ∣ 10 ^ decExpOf q
  · rw [if_pos hdvd] at hc
    exact classify_aux _ _ _ (by split <;> simp) (fracBlock_all_digits _ _) c hc
  · rw [if_neg hdvd] at hc
    exact classify_aux _ _ _ (by split <;> simp) (natDigs_all_digits _) c hc

theorem pyStrFloatChars_no_ws (q : ℚ) : ∀ c ∈ pyStrFloatChars q, isWs c = false := by
  intro c hc
  rcases pyStrFloatChars_classify q c hc with h | h | h
  · exact isWs_eq_false_of_isDig h
  · rw [h]; decide
  · rw [h]; decide

theorem pyStrFloatChars_no_pct (q : ℚ) : ∀ c ∈ pyStrFloatChars q, c ≠ '%' := by
  intro c hc
  rcases pyStrFloatChars_classify q c hc with h | h | h
  · exact ne_of_isDig h (by decide)
  · rw [h]; decide
  · rw [h]; decide

theorem dot_mem_pyStrFloatChars (q : ℚ) : '.' ∈ pyStrFloatChars q := by
  simp only [pyStrFloatChars]
  split <;> split <;> simp

/-! ### Round trip: printed floats parse back to the same rational -/

theorem mkRat_digit_value (a k : Nat) :
    mkRat ((digitsToNat (natDigs (a / 10 ^ k)) * 10 ^
        (if k = 0 then ['0'] else padDigs k a).length +
        digitsToNat (if k = 0 then ['0'] else padDigs k a) : Nat) : Int)
      (10 ^ (if k = 0 then ['0'] else padDigs k a).length) = (a : ℚ) / 10 ^ k := by
  rw [digitsToNat_natDigs]
  by_cases hk0 : k = 0
  · subst hk0
    rw [if_pos rfl]
    have h0 : digitsToNat ['0'] = 0 := by decide
    simp only [h0, List.length_singleton, pow_zero, Nat.div_one, pow_one, Nat.add_zero]
    rw [Rat.mkRat_eq_div]
    push_cast
    rw [div_one]
    field_simp
  · rw [if_neg hk0, padDigs_length, digitsToNat_padDigs]
    have hsum : a / 10 ^ k * 10 ^ k + a % 10 ^ k = a := by
      rw [Nat.mul_comm]
      exact Nat.div_add_mod a (10 ^ k)
    rw [hsum, Rat.mkRat_eq_div]
    push_cast
    rfl

theorem pyFloatCore_pyStrFloat (q : ℚ) (h : q.den ∣ 10 ^ decExpOf q) :
    pyFloatCore (pyStrFloatChars q) = some q := by
  have hden0 : (q.den : ℚ) ≠ 0 := Nat.cast_ne_zero.mpr q.den_nz
  simp only [pyStrFloatChars]
  rw [if_pos h]
  generalize hK : decExpOf q = k at h
  generalize hA : q.num.natAbs * (10 ^ k / q.den) = a
  have hten : ((10 : ℚ) ^ k) ≠ 0 := by positivity
  have key : (a : ℚ) * q.den = (q.num.natAbs : ℚ) * 10 ^ k := by
    have h1 : a * q.den = q.num.natAbs * 10 ^ k := by
      rw [← hA, Nat.mul_assoc, Nat.div_mul_cancel h]
    exact_mod_cast congrArg (fun n : Nat => (n : ℚ)) h1
  have habs : (a : ℚ) / 10 ^ k = (q.num.natAbs : ℚ) / q.den := by
    rw [div_eq_div_iff hten hden0, key]
  have hval := mkRat_digit_value a k
  by_cases hn : q.num < 0
  · rw [if_pos hn]
    have hshape := pyFloatCore_neg_shape (natDigs (a / 10 ^ k))
      (if k = 0 then ['0'] else padDigs k a) (natDigs_all_digits _)
      (fracBlock_all_digits k a) (natDigs_ne_nil _)
    rw [List.singleton_append, List.cons_append, hshape]
    have hneg : mkRat (-((digitsToNat (natDigs (a / 10 ^ k)) * 10 ^
        (if k = 0 then ['0'] else padDigs k a).length +
        digitsToNat (if k = 0 then ['0'] else padDigs k a) : Nat) : Int))
        (10 ^ (if k = 0 then ['0'] else padDigs k a).length) = -((a : ℚ) / 10 ^ k) := by
      rw [Rat.mkRat_eq_div] at hval ⊢
      push_cast at hval ⊢
      rw [neg_div, hval]
    rw [hneg, habs]
    have habs2 : ((q.num.natAbs : ℚ)) = -(q.num : ℚ) := by
      rw [Int.cast_natAbs, abs_of_neg hn]
      push_cast
      ring
    rw [habs2, neg_div, neg_neg, Rat.num_div_den]
  · rw [if_neg hn]
    have hshape := pyFloatCore_shape (natDigs (a / 10 ^ k))
      (if k = 0 then ['0'] else padDigs k a) (natDigs_all_digits _)
      (fracBlock_all_digits k a) (natDigs_ne_nil _)
    rw [List.nil_append, hshape]
    rw [hval, habs]
    have habs2 : ((q.num.natAbs : ℚ)) = (q.num : ℚ) := by
      rw [Int.cast_natAbs, abs_of_nonneg (not_lt.mp hn)]
    rw [habs2, Rat.num_div_den]

/-! ### Rounding facts -/

theorem roundTE_intCast (z : Int) : roundTE ((z : ℚ)) = z := by
  unfold roundTE
  rw [Rat.num_intCast, Rat.den_intCast]
  norm_num

theorem roundTE_mkRat_one (z : Int) : roundTE (mkRat z 1) = z := by
  rw [Rat.mkRat_one]
  exact_mod_cast roundTE_intCast z

/-! ### Value-level facts about the two percentage coercions -/

theorem pyStr_int_classify (i : Int) :
    ∀ c ∈ pyStr (.int i), isDig c = true ∨ c = '-' := by
  intro c hc
  simp only [pyStr] at hc
  rcases List.mem_append.mp hc with h1 | h1
  · split at h1
    · simp at h1
      exact Or.inr h1
    · simp at h1
  · exact Or.inl (natDigs_all_digits _ c h1)

theorem pyStr_int_no_ws (i : Int) : ∀ c ∈ pyStr (.int i), isWs c = false := by
  intro c hc
  rcases pyStr_int_classify i c hc with h | h
  · exact isWs_eq_false_of_isDig h
  · rw [h]; decide

theorem pyStr_int_no_pct (i : Int) : ∀ c ∈ pyStr (.int i), c ≠ '%' := by
  intro c hc
  rcases pyStr_int_classify i c hc with h | h
  · exact ne_of_isDig h (by decide)
  · rw [h]; decide

theorem safe_int_percent_int (i : Int) : safe_int_percent (.int i) = .int i := by
  have hbody : safe_int_percent (.int i) =
      (match pyFloatCore (remPct (trimChars (pyStr (.int i)))) with
       | some q => PyVal.int (roundTE q)
       | Option.none => PyVal.int 0) := rfl
  rw [hbody, trimChars_of_no_ws (pyStr_int_no_ws i), remPct_of_no_pct (pyStr_int_no_pct i)]
  by_cases hn : i < 0
  · have hpy : pyStr (.int i) = '-' :: natDigs i.natAbs := by
      simp [pyStr, hn]
    rw [hpy, pyFloatCore_neg_digits _ (natDigs_all_digits _) (natDigs_ne_nil _)]
    rw [digitsToNat_natDigs]
    show PyVal.int (roundTE (mkRat (-(i.natAbs : Int)) 1)) = PyVal.int i
    rw [roundTE_mkRat_one]
    congr 1
    omega
  · have hpy : pyStr (.int i) = natDigs i.natAbs := by
      simp [pyStr, hn]
    rw [hpy, pyFloatCore_digits _ (natDigs_all_digits _) (natDigs_ne_nil _)]
    rw [digitsToNat_natDigs]
    show PyVal.int (roundTE (mkRat ((i.natAbs : Int)) 1)) = PyVal.int i
    rw [roundTE_mkRat_one]
    congr 1
    omega

theorem safe_int_percent_float (q : ℚ) (h : q.den ∣ 10 ^ decExpOf q) :
    safe_int_percent (.float q) = .int (roundTE q) := by
  have hbody : safe_int_percent (.float q) =
      (match pyFloatCore (remPct (trimChars (pyStr (.float q)))) with
       | some w => PyVal.int (roundTE w)
       | Option.none => PyVal.int 0) := rfl
  have hpy : pyStr (.float q) = pyStrFloatChars q := rfl
  rw [hbody, hpy, trimChars_of_no_ws (pyStrFloatChars_no_ws q),
    remPct_of_no_pct (pyStrFloatChars_no_pct q), pyFloatCore_pyStrFloat q h]

theorem safe_int_percent_isInt (v : PyVal) : ∃ n : Int, safe_int_percent v = .int n := by
  have hgen : ∀ cs : List Char, ∃ n : Int,
      (match pyFloatCore cs with
       | some w => PyVal.int (roundTE w)
       | Option.none => PyVal.int 0) = .int n := by
    intro cs
    cases pyFloatCore cs with
    | some w => exact ⟨roundTE w, rfl⟩
    | none => exact ⟨0, rfl⟩
  cases v with
  | null => exact ⟨0, rfl⟩
  | bool b => exact hgen _
  | int i => exact hgen _
  | float w => exact hgen _
  | str s => exact hgen _
  | list xs => exact hgen _
  | dict fs => exact hgen _

theorem flaskPct_int_nonneg (i : Int) (h : 0 ≤ i) : flaskPct (some (.int i)) = i := by
  have hpy : pyStr (.int i) = natDigs i.natAbs := by
    simp [pyStr, not_lt.mpr h]
  have hnp : ∀ c ∈ pyStr (.int i), c ≠ '%' := pyStr_int_no_pct i
  simp only [flaskPct, Option.getD_some]
  rw [remPct_of_no_pct hnp, hpy]
  rw [if_pos ⟨natDigs_ne_nil _, List.all_eq_true.mpr
    (fun x hx => natDigs_all_digits _ x hx)⟩]
  rw [digitsToNat_natDigs]
  omega

theorem flaskPct_int_neg (i : Int) (h : i < 0) : flaskPct (some (.int i)) = 0 := by
  have hpy : pyStr (.int i) = '-' :: natDigs i.natAbs := by
    simp [pyStr, h]
  have hnp : ∀ c ∈ pyStr (.int i), c ≠ '%' := pyStr_int_no_pct i
  simp only [flaskPct, Option.getD_some]
  rw [remPct_of_no_pct hnp, hpy]
  rw [if_neg]
  rintro ⟨-, hall⟩
  have := List.all_eq_true.mp hall '-' (by simp)
  exact absurd this (by decide)

theorem flaskPct_float (q : ℚ) : flaskPct (some (.float q)) = 0 := by
  have hdot : '.' ∈ remPct (pyStr (.float q)) := by
    refine List.mem_filter.mpr ⟨dot_mem_pyStrFloatChars q, by decide⟩
  simp only [flaskPct, Option.getD_some]
  rw [if_neg]
  rintro ⟨-, hall⟩
  have := List.all_eq_true.mp hall '.' hdot
  exact absurd this (by decide)

theorem flaskPct_absent : flaskPct Option.none = 0 := by decide

/-! ### Field lookups through the streamlit backfill chain -/

theorem getD_getD (o : Option PyVal) (v : PyVal) : o.getD (o.getD v) = o.getD v := by
  cases o <;> rfl

theorem stFill1_get_ne (d : List (String × PyVal)) (name key : String) (h : key ≠ "Name") :
    dictGet (stFill1 d name) key = dictGet d key := by
  unfold stFill1
  split
  · exact dictGet_dictSet_ne _ _ _ _ h
  · rfl

theorem stFill2_get_ne (d : List (String × PyVal)) (name key : String)
    (h1 : key ≠ "Name") (h2 : key ≠ "Filename") :
    dictGet (stFill2 d name) key = dictGet d key := by
  unfold stFill2
  rw [dictGet_dictSet_ne _ _ _ _ h2, stFill1_get_ne _ _ _ h1]

theorem stFill3_get_ne (d : List (String × PyVal)) (name key : String)
    (h1 : key ≠ "Name") (h2 : key ≠ "Filename") (h3 : key ≠ "MatchPercentage") :
    dictGet (stFill3 d name) key = dictGet d key := by
  unfold stFill3
  rw [dictGet_dictSet_ne _ _ _ _ h3, stFill2_get_ne _ _ _ h1 h2]

theorem stFill4_get_ne (d : List (String × PyVal)) (name key : String)
    (h1 : key ≠ "Name") (h2 : key ≠ "Filename") (h3 : key ≠ "MatchPercentage")
    (h4 : key ≠ "GlobalMatch") :
    dictGet (stFill4 d name) key = dictGet d key := by
  unfold stFill4
  rw [dictGet_setdefault_ne _ _ _ _ h4, stFill3_get_ne _ _ _ h1 h2 h3]

theorem stFill5_get_ne (d : List (String × PyVal)) (name key : String)
    (h1 : key ≠ "Name") (h2 : key ≠ "Filename") (h3 : key ≠ "MatchPercentage")
    (h4 : key ≠ "GlobalMatch") (h5 : key ≠ "MarketTier") :
    dictGet (stFill5 d name) key = dictGet d key := by
  unfold stFill5
  rw [dictGet_setdefault_ne _ _ _ _ h5, stFill4_get_ne _ _ _ h1 h2 h3 h4]

theorem stFill6_get_ne (d : List (String × PyVal)) (name key : String)
    (h1 : key ≠ "Name") (h2 : key ≠ "Filename") (h3 : key ≠ "MatchPercentage")
    (h4 : key ≠ "GlobalMatch") (h5 : key ≠ "MarketTier") (h6 : key ≠ "MatchedKeywords") :
    dictGet (stFill6 d name) key = dictGet d key := by
  unfold stFill6
  rw [dictGet_setdefault_ne _ _ _ _ h6, stFill5_get_ne _ _ _ h1 h2 h3 h4 h5]

theorem stFill7_get_ne (d : List (String × PyVal)) (name key : String)
    (h1 : key ≠ "Name") (h2 : key ≠ "Filename") (h3 : key ≠ "MatchPercentage")
    (h4 : key ≠ "GlobalMatch") (h5 : key ≠ "MarketTier") (h6 : key ≠ "MatchedKeywords")
    (h7 : key ≠ "MissingKeywords") :
    dictGet (stFill7 d name) key = dictGet d key := by
  unfold stFill7
  rw [dictGet_setdefault_ne _ _ _ _ h7, stFill6_get_ne _ _ _ h1 h2 h3 h4 h5 h6]

theorem stFill_get_filename (d : List (String × PyVal)) (name : String) :
    dictGet (stFill d name) "Filename" = some (.str name) := by
  unfold stFill
  rw [dictGet_setdefault_ne _ _ _ _ (by decide)]
  unfold stFill7
  rw [dictGet_setdefault_ne _ _ _ _ (by decide)]
  unfold stFill6
  rw [dictGet_setdefault_ne _ _ _ _ (by decide)]
  unfold stFill5
  rw [dictGet_setdefault_ne _ _ _ _ (by decide)]
  unfold stFill4
  rw [dictGet_setdefault_ne _ _ _ _ (by decide)]
  unfold stFill3
  rw [dictGet_dictSet_ne _ _ _ _ (by decide)]
  unfold stFill2
  rw [dictGet_dictSet_self]

theorem stFill_get_match (d : List (String × PyVal)) (name : String) :
    dictGet (stFill d name) "MatchPercentage" =
      some (safe_int_percent (dictGetD d "MatchPercentage" (.int 0))) := by
  unfold stFill
  rw [dictGet_setdefault_ne _ _ _ _ (by decide)]
  unfold stFill7
  rw [dictGet_setdefault_ne _ _ _ _ (by decide)]
  unfold stFill6
  rw [dictGet_setdefault_ne _ _ _ _ (by decide)]
  unfold stFill5
  rw [dictGet_setdefault_ne _ _ _ _ (by decide)]
  unfold stFill4
  rw [dictGet_setdefault_ne _ _ _ _ (by decide)]
  unfold stFill3
  rw [dictGet_dictSet_self]
  unfold dictGetD
  rw [stFill2_get_ne _ _ _ (by decide) (by decide)]

theorem stFill_get_name (d : List (String × PyVal)) (name : String) :
    dictGet (stFill d name) "Name" =
      if stNameTriggers (dictGet d "Name") then some (.str name)
      else dictGet d "Name" := by
  unfold stFill
  rw [dictGet_setdefault_ne _ _ _ _ (by decide)]
  unfold stFill7
  rw [dictGet_setdefault_ne _ _ _ _ (by decide)]
  unfold stFill6
  rw [dictGet_setdefault_ne _ _ _ _ (by decide)]
  unfold stFill5
  rw [dictGet_setdefault_ne _ _ _ _ (by decide)]
  unfold stFill4
  rw [dictGet_setdefault_ne _ _ _ _ (by decide)]
  unfold stFill3
  rw [dictGet_dictSet_ne _ _ _ _ (by decide)]
  unfold stFill2
  rw [dictGet_dictSet_ne _ _ _ _ (by decide)]
  unfold stFill1
  by_cases ht : stNameTriggers (dictGet d "Name")
  · rw [if_pos ht, if_pos ht, dictGet_dictSet_self]
  · rw [if_neg ht, if_neg ht]

theorem stFill_get_globalMatch (d : List (String × PyVal)) (name : String) :
    dictGet (stFill d name) "GlobalMatch" =
      some ((dictGet d "GlobalMatch").getD (.str "N/A")) := by
  unfold stFill
  rw [dictGet_setdefault_ne _ _ _ _ (by decide)]
  unfold stFill7
  rw [dictGet_setdefault_ne _ _ _ _ (by decide)]
  unfold stFill6
  rw [dictGet_setdefault_ne _ _ _ _ (by decide)]
  unfold stFill5
  rw [dictGet_setdefault_ne _ _ _ _ (by decide)]
  unfold stFill4
  rw [dictGet_setdefault_self]
  unfold dictGetD
  rw [stFill3_get_ne _ _ _ (by decide) (by decide) (by decide), getD_getD]

theorem stFill_get_marketTier (d : List (String × PyVal)) (name : String) :
    dictGet (stFill d name) "MarketTier" =
      some ((dictGet d "MarketTier").getD (.str "")) := by
  unfold stFill
  rw [dictGet_setdefault_ne _ _ _ _ (by decide)]
  unfold stFill7
  rw [dictGet_setdefault_ne _ _ _ _ (by decide)]
  unfold stFill6
  rw [dictGet_setdefault_ne _ _ _ _ (by decide)]
  unfold stFill5
  rw [dictGet_setdefault_self]
  unfold dictGetD
  rw [stFill4_get_ne _ _ _ (by decide) (by decide) (by decide) (by decide), getD_getD]

theorem stFill_get_matched (d : List (String × PyVal)) (name : String) :
    dictGet (stFill d name) "MatchedKeywords" =
      some ((dictGet d "MatchedKeywords").getD (.list [])) := by
  unfold stFill
  rw [dictGet_setdefault_ne _ _ _ _ (by decide)]
  unfold stFill7
  rw [dictGet_setdefault_ne _ _ _ _ (by decide)]
  unfold stFill6
  rw [dictGet_setdefault_self]
  unfold dictGetD
  rw [stFill5_get_ne _ _ _ (by decide) (by decide) (by decide) (by decide) (by decide),
    getD_getD]

theorem stFill_get_missing (d : List (String × PyVal)) (name : String) :
    dictGet (stFill d name) "MissingKeywords" =
      some ((dictGet d "MissingKeywords").getD (.list [])) := by
  unfold stFill
  rw [dictGet_setdefault_ne _ _ _ _ (by decide)]
  unfold stFill7
  rw [dictGet_setdefault_self]
  unfold dictGetD
  rw [stFill6_get_ne _ _ _ (by decide) (by decide) (by decide) (by decide) (by decide)
    (by decide), getD_getD]

theorem stFill_get_summary (d : List (String × PyVal)) (name : String) :
    dictGet (stFill d name) "Summary" =
      some ((dictGet d "Summary").getD (.str "")) := by
  unfold stFill
  rw [dictGet_setdefault_self]
  unfold dictGetD
  rw [stFill7_get_ne _ _ _ (by decide) (by decide) (by decide) (by decide) (by decide)
    (by decide) (by decide), getD_getD]

/-! ### Field lookups through the Flask backfill chain -/

theorem fbFill1_get_ne (d : List (String × PyVal)) (name key : String) (h : key ≠ "Name") :
    dictGet (fbFill1 d name) key = dictGet d key := by
  unfold fbFill1
  split
  · exact dictGet_dictSet_ne _ _ _ _ h
  · rfl

theorem fbFill2_get_ne (d : List (String × PyVal)) (name key : String)
    (h1 : key ≠ "Name") (h2 : key ≠ "Filename") :
    dictGet (fbFill2 d name) key = dictGet d key := by
  unfold fbFill2
  rw [dictGet_dictSet_ne _ _ _ _ h2, fbFill1_get_ne _ _ _ h1]

theorem fbFill_get_ne (d : List (String × PyVal)) (name key : String)
    (h1 : key ≠ "Name") (h2 : key ≠ "Filename") (h3 : key ≠ "MatchPercentage") :
    dictGet (fbFill d name) key = dictGet d key := by
  unfold fbFill
  rw [dictGet_dictSet_ne _ _ _ _ h3, fbFill2_get_ne _ _ _ h1 h2]

theorem fbFill_get_filename (d : List (String × PyVal)) (filename : String) :
    dictGet (fbFill d filename) "Filename" = some (.str filename) := by
  unfold fbFill
  rw [dictGet_dictSet_ne _ _ _ _ (by decide)]
  unfold fbFill2
  rw [dictGet_dictSet_self]

theorem fbFill_get_match (d : List (String × PyVal)) (filename : String) :
    dictGet (fbFill d filename) "MatchPercentage" =
      some (.int (flaskPct (dictGet d "MatchPercentage"))) := by
  unfold fbFill
  rw [dictGet_dictSet_self, fbFill2_get_ne _ _ _ (by decide) (by decide)]

theorem fbFill_get_name (d : List (String × PyVal)) (filename : String) :
    dictGet (fbFill d filename) "Name" =
      if flaskNameTriggers (dictGet d "Name") then some (.str filename)
      else dictGet d "Name" := by
  unfold fbFill
  rw [dictGet_dictSet_ne _ _ _ _ (by decide)]
  unfold fbFill2
  rw [dictGet_dictSet_ne _ _ _ _ (by decide)]
  unfold fbFill1
  by_cases ht : flaskNameTriggers (dictGet d "Name")
  · rw [if_pos ht, if_pos ht, dictGet_dictSet_self]
  · rw [if_neg ht, if_neg ht]

example : flaskProcessOne "a.pdf" "x" "42" = .error .typeError := rfl
example : streamlitProcessOne "a.pdf" 3 "x" "42" = .error .attributeError := rfl
example : flaskProcessOne "r.pdf" "x" "oops" = .ok [flaskPlaceholder "r.pdf"] := rfl
example : streamlitProcessOne "a.pdf" 3 " " "whatever" = .ok [] := rfl
example : flaskProcessOne "r.pdf" "x" "\x7b\"MatchPercentage\": 85.5\x7d" =
    .ok [.dict [("MatchPercentage", .int 0), ("Name", .str "r.pdf"),
      ("Filename", .str "r.pdf")]] := rfl
example : streamlitProcessOne "a.txt" 3 "hi" "\x7b\"Name\": \"Bob\", \"MatchPercentage\": 60\x7d" =
    .ok [.dict [("Name", .str "Bob"), ("MatchPercentage", .int 60),
      ("Filename", .str "a.txt"), ("GlobalMatch", .str "N/A"), ("MarketTier", .str ""),
      ("MatchedKeywords", .list []), ("MissingKeywords", .list []),
      ("Summary", .str "")]] := rfl

/-! ## Claim theorems -/

/-- C10: for every outcome of the underlying PDF parse (including corrupt
streams and unsupported encodings, modelled by the `failure` constructor),
text extraction in both front ends never lets an exception reach the caller:
the result is always `.ok` with a string, any parse failure yields the empty
string, and absence of content is the empty string rather than a null value
(the result type carries a `String`, never `None`). -/
theorem c10_extraction_never_raises :
    (∀ r : PdfOutcome, ∃ s : String, extract_text_from_pdf r = .ok s) ∧
    (∀ msg : String, extract_text_from_pdf (.failure msg) = .ok "") ∧
    (∀ r : PdfOutcome, ∃ s : String, extract_text_from_pdf_bytes r = .ok s) ∧
    (∀ msg : String, extract_text_from_pdf_bytes (.failure msg) = .ok "") := by
  refine ⟨fun r => ?_, fun msg => rfl, fun r => ?_, fun msg => rfl⟩ <;>
    cases r <;> exact ⟨_, rfl⟩

/-- C7: ranking (`results.sort(key=..., reverse=True)`) permutes the record
collection without modifying any record, orders it descending by the
`MatchPercentage` key, and is stable: any subcollection already weakly
descending (in particular any pair of records with equal percentage, in
insertion order) survives as a subsequence of the ranked output. -/
theorem c7_rank_stable_descending (l : List PyVal) :
    List.Perm (rank l) l ∧
    (rank l).Pairwise (fun a b => keyOf b ≤ keyOf a) ∧
    (∀ c : List PyVal, c.Pairwise (fun a b => keyOf b ≤ keyOf a) → List.Sublist c l →
      List.Sublist c (rank l)) := by
  have htrans : ∀ a b c : PyVal,
      (fun a b => decide (keyOf b ≤ keyOf a)) a b = true →
      (fun a b => decide (keyOf b ≤ keyOf a)) b c = true →
      (fun a b => decide (keyOf b ≤ keyOf a)) a c = true := by
    intro a b c hab hbc
    simp only [decide_eq_true_eq] at *
    omega
  have htotal : ∀ a b : PyVal,
      ((fun a b => decide (keyOf b ≤ keyOf a)) a b ||
        (fun a b => decide (keyOf b ≤ keyOf a)) b a) = true := by
    intro a b
    simp only [Bool.or_eq_true, decide_eq_true_eq]
    omega
  refine ⟨List.mergeSort_perm l _, ?_, ?_⟩
  · have h := List.sorted_mergeSort htrans htotal l
    exact h.imp (fun hab => of_decide_eq_true hab)
  · intro c hc hsub
    exact List.sublist_mergeSort htrans htotal
      (hc.imp (fun hab => decide_eq_true hab)) hsub

/-- C7 witness: two records with equal `MatchPercentage` keep their
insertion order through ranking. -/
theorem c7_rank_witness :
    List.Sublist
      [PyVal.dict [("MatchPercentage", .int 50), ("Name", .str "a")],
       PyVal.dict [("MatchPercentage", .int 50), ("Name", .str "b")]]
      (rank [PyVal.dict [("MatchPercentage", .int 50), ("Name", .str "a")],
        PyVal.dict [("MatchPercentage", .int 50), ("Name", .str "b")]]) := by
  refine (c7_rank_stable_descending _).2.2 _ ?_ (List.Sublist.refl _)
  simp only [List.pairwise_cons, List.mem_singleton]
  refine ⟨fun b hb => ?_, fun b hb => absurd hb (List.not_mem_nil b), List.Pairwise.nil⟩
  rw [hb]
  decide

/-- C2: the claim that no single-file model output can abort the whole batch
is the spec's clear intent, but the code violates it: a raw output that is
valid JSON yet not a JSON object (here the bare number `42`) raises an
uncaught `TypeError` in `app.py` (`"Name" not in data`) and an uncaught
`AttributeError` in `streamlit.py` (`parsed.get`), so the Flask route
answers a batch-wide 500 and the streamlit run dies, losing the remaining
files instead of producing a placeholder record. -/
theorem c2_nonobject_output_aborts_batch :
    flaskProcessOne "a.pdf" "x" "42" = .error .typeError ∧
    streamlitProcessOne "a.pdf" 3 "x" "42" = .error .attributeError ∧
    flaskAnalyze (some "jd") [("a.pdf", "x", "42"), ("b.pdf", "y", "\x7b\x7d")] =
      .serverError .typeError ∧
    streamlitRun "jd" [("a.pdf", 3, "x", "42"), ("b.pdf", 3, "y", "\x7b\x7d")] =
      .crashed .attributeError :=
  ⟨rfl, rfl, rfl, rfl⟩

/-- C1 counterexample: for the model output `{"MatchPercentage": 85.5}`
(braces elided), a valid JSON object with a numeric non-integer value, the
Flask normalizer stores `0`, not the value rounded to the nearest integer
(85 or 86 under any tie-breaking), refuting the claim as stated. -/
theorem c1_counterexample :
    flaskProcessOne "r.pdf" "x" "\x7b\"MatchPercentage\": 85.5\x7d" =
      .ok [.dict [("MatchPercentage", .int 0), ("Name", .str "r.pdf"),
        ("Filename", .str "r.pdf")]] ∧
    PyVal.int 0 ≠ PyVal.int 85 ∧ PyVal.int 0 ≠ PyVal.int 86 := by
  refine ⟨rfl, fun h => ?_, fun h => ?_⟩ <;>
    · injection h with h2
      exact absurd h2 (by decide)

/-- C1 (amended): the streamlit front end's `safe_int_percent` removes every
percent sign from the string form, coerces with `float`, rounds half-to-even
on success and yields 0 on failure — integer values pass through unchanged
and every finite binary float (dyadic rational) rounds to the nearest
integer; the Flask front end instead accepts only digit-only strings after
percent removal, so nonnegative integers pass through and every other value
(negative, non-integer numeric, non-numeric) becomes 0.  In both, the
produced record's `MatchPercentage` is the respective coercion of the raw
field and is always an integer, never a string. -/
theorem c1_match_percentage_coercion :
    (∀ i : Int, safe_int_percent (.int i) = .int i) ∧
    (∀ q : ℚ, q.den ∣ 10 ^ decExpOf q → safe_int_percent (.float q) = .int (roundTE q)) ∧
    (∀ v : PyVal, ∃ n : Int, safe_int_percent v = .int n) ∧
    (∀ i : Int, 0 ≤ i → flaskPct (some (.int i)) = i) ∧
    (∀ i : Int, i < 0 → flaskPct (some (.int i)) = 0) ∧
    (∀ q : ℚ, flaskPct (some (.float q)) = 0) ∧
    (∀ (d : List (String × PyVal)) (name : String),
      dictGet (stFill d name) "MatchPercentage" =
        some (safe_int_percent (dictGetD d "MatchPercentage" (.int 0)))) ∧
    (∀ (d : List (String × PyVal)) (name : String),
      dictGet (fbFill d name) "MatchPercentage" =
        some (.int (flaskPct (dictGet d "MatchPercentage")))) :=
  ⟨safe_int_percent_int, safe_int_percent_float, safe_int_percent_isInt,
   flaskPct_int_nonneg, flaskPct_int_neg, flaskPct_float,
   stFill_get_match, fbFill_get_match⟩

/-- C1 witness: the amended coercion facts at concrete inputs — `85.5`
rounds half-to-even to `86` in the streamlit front end, and the Flask
coercion keeps `60` and zeroes `-5`. -/
theorem c1_match_percentage_witness :
    safe_int_percent (.float (mkRat 171 2)) = .int 86 ∧
    flaskPct (some (.int 60)) = 60 ∧
    flaskPct (some (.int (-5))) = 0 := by
  refine ⟨?_, ?_, ?_⟩
  · have h := c1_match_percentage_coercion.2.1 (mkRat 171 2) (by decide)
    rw [h]
    rfl
  · exact c1_match_percentage_coercion.2.2.2.1 60 (by decide)
  · exact c1_match_percentage_coercion.2.2.2.2.1 (-5) (by decide)

/-- C3 counterexample: on an unparseable model output the Flask placeholder
record carries no `MatchedKeywords` field at all, contradicting the claim
that both keyword lists are present and empty. -/
theorem c3_counterexample :
    flaskProcessOne "r.pdf" "x" "oops" =
      .ok [.dict [("Name", .str "r.pdf"), ("MatchPercentage", .int 0),
        ("Summary", .str "Error parsing AI response. View Terminal for details."),
        ("GlobalMatch", .str "N/A")]] ∧
    dictGet [("Name", PyVal.str "r.pdf"), ("MatchPercentage", PyVal.int 0),
      ("Summary", PyVal.str "Error parsing AI response. View Terminal for details."),
      ("GlobalMatch", PyVal.str "N/A")] "MatchedKeywords" = Option.none :=
  ⟨rfl, rfl⟩

/-- C3 (amended): on a cleaned candidate that fails to parse as JSON, the
streamlit front end produces exactly the claimed synthetic record (name =
filename, percentage 0, globalMatch "N/A", a fixed non-empty parsing-error
summary, both keyword lists present and empty, filename set) and continues;
the Flask front end also continues with a synthetic record whose name,
percentage 0, "N/A" global match and fixed summary match the claim, but that
record carries no keyword lists and no `Filename` field. -/
theorem c3_parse_failure_placeholder :
    (∀ (name text raw : String) (sz : Nat),
      ¬ sz > 10485760 → supportedExt name = true →
      ¬ (text = "" ∨ trimChars text.data = []) →
      jsonLoads (clean_ai_json raw.data) = .error () →
      streamlitProcessOne name sz text raw =
        .ok [.dict (stFill (stPlaceholderFields name) name)] ∧
      dictGet (stFill (stPlaceholderFields name) name) "Name" = some (.str name) ∧
      dictGet (stFill (stPlaceholderFields name) name) "MatchPercentage" = some (.int 0) ∧
      dictGet (stFill (stPlaceholderFields name) name) "GlobalMatch" = some (.str "N/A") ∧
      dictGet (stFill (stPlaceholderFields name) name) "Summary" =
        some (.str "Error parsing AI response.") ∧
      dictGet (stFill (stPlaceholderFields name) name) "MatchedKeywords" = some (.list []) ∧
      dictGet (stFill (stPlaceholderFields name) name) "MissingKeywords" = some (.list []) ∧
      dictGet (stFill (stPlaceholderFields name) name) "Filename" = some (.str name)) ∧
    (∀ (name text raw : String),
      name ≠ "" → text ≠ "" → jsonLoads (flaskClean raw.data) = .error () →
      flaskProcessOne name text raw = .ok [flaskPlaceholder name] ∧
      dictGet (flaskPlaceholderFields name) "Name" = some (.str name) ∧
      dictGet (flaskPlaceholderFields name) "MatchPercentage" = some (.int 0) ∧
      dictGet (flaskPlaceholderFields name) "GlobalMatch" = some (.str "N/A") ∧
      dictGet (flaskPlaceholderFields name) "Summary" =
        some (.str "Error parsing AI response. View Terminal for details.") ∧
      dictGet (flaskPlaceholderFields name) "MatchedKeywords" = Option.none ∧
      dictGet (flaskPlaceholderFields name) "MissingKeywords" = Option.none ∧
      dictGet (flaskPlaceholderFields name) "Filename" = Option.none) := by
  constructor
  · intro name text raw sz hsz hext htext hparse
    refine ⟨?_, ?_, ?_, ?_, ?_, ?_, ?_, ?_⟩
    · unfold streamlitProcessOne
      rw [if_neg hsz, if_neg (by simp [hext]), if_neg htext, hparse]
      rfl
    · rw [stFill_get_name]
      split <;> rfl
    · rw [stFill_get_match]
      rfl
    · rw [stFill_get_globalMatch]
      rfl
    · rw [stFill_get_summary]
      rfl
    · rw [stFill_get_matched]
      rfl
    · rw [stFill_get_missing]
      rfl
    · exact stFill_get_filename _ _
  · intro name text raw hname htext hparse
    refine ⟨?_, rfl, rfl, rfl, rfl, rfl, rfl, rfl⟩
    unfold flaskProcessOne
    rw [if_neg hname, if_neg htext, hparse]

/-- C3 witness: both placeholder paths at the concrete unparseable output
`oops`. -/
theorem c3_parse_failure_witness :
    streamlitProcessOne "a.pdf" 3 "x" "oops" =
      .ok [.dict (stFill (stPlaceholderFields "a.pdf") "a.pdf")] ∧
    flaskProcessOne "q.pdf" "x" "oops" = .ok [flaskPlaceholder "q.pdf"] :=
  ⟨(c3_parse_failure_placeholder.1 "a.pdf" "x" "oops" 3 (by decide) (by decide)
      (by decide) rfl).1,
   (c3_parse_failure_placeholder.2 "q.pdf" "x" "oops" (by decide) (by decide) rfl).1⟩

/-- C4 counterexample: a parsed response with an explicit empty `Name` keeps
the empty name in the Flask front end — the record's name is `""`, not the
filename, refuting "replaced exactly when missing, empty, or the
placeholder". -/
theorem c4_counterexample :
    flaskProcessOne "john.pdf" "x" "\x7b\"Name\": \"\", \"MatchPercentage\": 60\x7d" =
      .ok [.dict [("Name", .str ""), ("MatchPercentage", .int 60),
        ("Filename", .str "john.pdf")]] ∧
    PyVal.str "" ≠ PyVal.str "john.pdf" := by
  refine ⟨rfl, fun h => ?_⟩
  injection h with h2
  exact absurd h2 (by decide)

/-- C4 (amended): in the streamlit front end the parsed `Name` is replaced
by the filename exactly when it is missing, null, empty, or the literal
placeholder "Candidate Name"; in the Flask front end exactly when it is
missing or the literal placeholder — an explicit empty (or null) name is
kept.  The claim's concrete instance ({"Name": "Candidate Name",
"MatchPercentage": 60} with filename john.pdf) yields name john.pdf in both
front ends. -/
theorem c4_name_replacement :
    (∀ (d : List (String × PyVal)) (name : String),
      dictGet (stFill d name) "Name" =
        if stNameTriggers (dictGet d "Name") then some (.str name)
        else dictGet d "Name") ∧
    (∀ o : Option PyVal, stNameTriggers o = true ↔
      (o = Option.none ∨ o = some .null ∨ o = some (.str "") ∨
        o = some (.str "Candidate Name"))) ∧
    (∀ (d : List (String × PyVal)) (name : String),
      dictGet (fbFill d name) "Name" =
        if flaskNameTriggers (dictGet d "Name") then some (.str name)
        else dictGet d "Name") ∧
    (∀ o : Option PyVal, flaskNameTriggers o = true ↔
      (o = Option.none ∨ o = some (.str "Candidate Name"))) ∧
    flaskProcessOne "john.pdf" "x"
        "\x7b\"Name\": \"Candidate Name\", \"MatchPercentage\": 60\x7d" =
      .ok [.dict [("Name", .str "john.pdf"), ("MatchPercentage", .int 60),
        ("Filename", .str "john.pdf")]] ∧
    streamlitProcessOne "john.pdf" 3 "x"
        "\x7b\"Name\": \"Candidate Name\", \"MatchPercentage\": 60\x7d" =
      .ok [.dict [("Name", .str "john.pdf"), ("MatchPercentage", .int 60),
        ("Filename", .str "john.pdf"), ("GlobalMatch", .str "N/A"),
        ("MarketTier", .str ""), ("MatchedKeywords", .list []),
        ("MissingKeywords", .list []), ("Summary", .str "")]] := by
  refine ⟨stFill_get_name, ?_, fbFill_get_name, ?_, rfl, rfl⟩
  · intro o
    cases o with
    | none => simp [stNameTriggers]
    | some v => cases v <;> simp [stNameTriggers]
  · intro o
    cases o with
    | none => simp [flaskNameTriggers]
    | some v => cases v <;> simp [flaskNameTriggers]

/-- C5 counterexample: the Flask malformed-response placeholder record lacks
the `Filename` field entirely, refuting "every MatchResult produced by
normalization has its filename field set". -/
theorem c5_counterexample :
    flaskProcessOne "r2.pdf" "x" "not json" =
      .ok [.dict [("Name", .str "r2.pdf"), ("MatchPercentage", .int 0),
        ("Summary", .str "Error parsing AI response. View Terminal for details."),
        ("GlobalMatch", .str "N/A")]] ∧
    dictGet [("Name", PyVal.str "r2.pdf"), ("MatchPercentage", PyVal.int 0),
      ("Summary", PyVal.str "Error parsing AI response. View Terminal for details."),
      ("GlobalMatch", PyVal.str "N/A")] "Filename" = Option.none :=
  ⟨rfl, rfl⟩

/-- C5 (amended): every record (genuine or placeholder) the streamlit front
end produces carries `Filename` equal to the uploaded name; in the Flask
front end this holds for every successfully parsed record, while the
malformed-response placeholder has no `Filename` field. -/
theorem c5_filename_always_set :
    (∀ (name text raw : String) (sz : Nat) (lst : List PyVal),
      streamlitProcessOne name sz text raw = .ok lst →
      ∀ r ∈ lst, dictGet (pyFields r) "Filename" = some (.str name)) ∧
    (∀ (d : List (String × PyVal)) (name : String),
      dictGet (fbFill d name) "Filename" = some (.str name)) ∧
    (∀ name : String, dictGet (flaskPlaceholderFields name) "Filename" = Option.none) := by
  refine ⟨?_, fbFill_get_filename, fun name => rfl⟩
  intro name text raw sz lst h r hr
  unfold streamlitProcessOne at h
  by_cases h1 : sz > 10485760
  · rw [if_pos h1] at h
    obtain rfl : ([] : List PyVal) = lst := Except.ok.inj h
    exact absurd hr (List.not_mem_nil r)
  rw [if_neg h1] at h
  by_cases h2 : ¬ supportedExt name = true
  · rw [if_pos h2] at h
    obtain rfl : ([] : List PyVal) = lst := Except.ok.inj h
    exact absurd hr (List.not_mem_nil r)
  rw [if_neg h2] at h
  by_cases h3 : text = "" ∨ trimChars text.data = []
  · rw [if_pos h3] at h
    obtain rfl : ([] : List PyVal) = lst := Except.ok.inj h
    exact absurd hr (List.not_mem_nil r)
  rw [if_neg h3] at h
  cases hjl : jsonLoads (clean_ai_json raw.data) with
  | error e =>
    rw [hjl] at h
    simp only [stPlaceholder, streamlitBackfill] at h
    obtain rfl : [PyVal.dict (stFill (stPlaceholderFields name) name)] = lst :=
      Except.ok.inj h
    rw [List.mem_singleton] at hr
    rw [hr]
    exact stFill_get_filename _ _
  | ok p =>
    rw [hjl] at h
    cases p with
    | dict flds =>
      simp only [streamlitBackfill] at h
      obtain rfl : [PyVal.dict (stFill flds name)] = lst := Except.ok.inj h
      rw [List.mem_singleton] at hr
      rw [hr]
      exact stFill_get_filename _ _
    | null => simp [streamlitBackfill] at h
    | bool b => simp [streamlitBackfill] at h
    | int i => simp [streamlitBackfill] at h
    | float w => simp [streamlitBackfill] at h
    | str s => simp [streamlitBackfill] at h
    | list xs => simp [streamlitBackfill] at h

/-- C5 witness: the streamlit guarantee applied to a concretely processed
file. -/
theorem c5_filename_witness :
    dictGet (pyFields (.dict [("Name", PyVal.str "Bob"), ("MatchPercentage", PyVal.int 60),
      ("Filename", PyVal.str "a.txt"), ("GlobalMatch", PyVal.str "N/A"),
      ("MarketTier", PyVal.str ""), ("MatchedKeywords", PyVal.list []),
      ("MissingKeywords", PyVal.list []), ("Summary", PyVal.str "")]))
      "Filename" = some (.str "a.txt") :=
  c5_filename_always_set.1 "a.txt" "hi" "\x7b\"Name\": \"Bob\", \"MatchPercentage\": 60\x7d"
    3 _ rfl _ (List.mem_singleton.mpr rfl)

/-- C6 counterexample: a file whose extracted text is the non-empty blank
string " " is skipped by the streamlit front end and yields zero records,
refuting "non-empty extraction produces exactly one record". -/
theorem c6_counterexample :
    streamlitProcessOne "a.pdf" 3 " " "whatever" = .ok [] ∧
    (" " : String) ≠ "" ∧ ([] : List PyVal).length = 0 :=
  ⟨rfl, by decide, rfl⟩

/-- C6 (amended): whenever per-file processing completes without the
uncaught non-object crash, it appends at most one record; the Flask front
end appends exactly one record iff the extracted text is non-empty (given a
non-empty filename), while the streamlit front end appends exactly one
record iff the extracted text is non-empty after stripping whitespace
(given an in-limit size and supported extension) — whitespace-only text is
skipped there. -/
theorem c6_exactly_one_record :
    (∀ (name text raw : String) (lst : List PyVal),
      flaskProcessOne name text raw = .ok lst → lst.length ≤ 1) ∧
    (∀ (name text raw : String) (lst : List PyVal), name ≠ "" →
      flaskProcessOne name text raw = .ok lst → (lst.length = 1 ↔ text ≠ "")) ∧
    (∀ (name text raw : String) (sz : Nat) (lst : List PyVal),
      streamlitProcessOne name sz text raw = .ok lst → lst.length ≤ 1) ∧
    (∀ (name text raw : String) (sz : Nat) (lst : List PyVal),
      ¬ sz > 10485760 → supportedExt name = true →
      streamlitProcessOne name sz text raw = .ok lst →
      (lst.length = 1 ↔ trimChars text.data ≠ [])) := by
  have hflask : ∀ (name text raw : String) (lst : List PyVal),
      flaskProcessOne name text raw = .ok lst →
      lst = [] ∨ ∃ r, lst = [r] := by
    intro name text raw lst h
    unfold flaskProcessOne at h
    by_cases h1 : name = ""
    · rw [if_pos h1] at h
      exact Or.inl (Except.ok.inj h).symm
    rw [if_neg h1] at h
    by_cases h2 : text = ""
    · rw [if_pos h2] at h
      exact Or.inl (Except.ok.inj h).symm
    rw [if_neg h2] at h
    cases hjl : jsonLoads (flaskClean raw.data) with
    | error e =>
      rw [hjl] at h
      exact Or.inr ⟨_, (Except.ok.inj h).symm⟩
    | ok p =>
      rw [hjl] at h
      cases p with
      | dict flds =>
        simp only [flaskBackfill] at h
        exact Or.inr ⟨_, (Except.ok.inj h).symm⟩
      | null => simp [flaskBackfill] at h
      | bool b => simp [flaskBackfill] at h
      | int i => simp [flaskBackfill] at h
      | float w => simp [flaskBackfill] at h
      | str s => simp [flaskBackfill] at h
      | list xs => simp [flaskBackfill] at h
  have hstream : ∀ (name text raw : String) (sz : Nat) (lst : List PyVal),
      streamlitProcessOne name sz text raw = .ok lst →
      lst = [] ∨ ∃ r, lst = [r] := by
    intro name text raw sz lst h
    unfold streamlitProcessOne at h
    by_cases h1 : sz > 10485760
    · rw [if_pos h1] at h
      exact Or.inl (Except.ok.inj h).symm
    rw [if_neg h1] at h
    by_cases h2 : ¬ supportedExt name = true
    · rw [if_pos h2] at h
      exact Or.inl (Except.ok.inj h).symm
    rw [if_neg h2] at h
    by_cases h3 : text = "" ∨ trimChars text.data = []
    · rw [if_pos h3] at h
      exact Or.inl (Except.ok.inj h).symm
    rw [if_neg h3] at h
    cases hjl : jsonLoads (clean_ai_json raw.data) with
    | error e =>
      rw [hjl] at h
      simp only [stPlaceholder, streamlitBackfill] at h
      exact Or.inr ⟨_, (Except.ok.inj h).symm⟩
    | ok p =>
      rw [hjl] at h
      cases p with
      | dict flds =>
        simp only [streamlitBackfill] at h
        exact Or.inr ⟨_, (Except.ok.inj h).symm⟩
      | null => simp [streamlitBackfill] at h
      | bool b => simp [streamlitBackfill] at h
      | int i => simp [streamlitBackfill] at h
      | float w => simp [streamlitBackfill] at h
      | str s => simp [streamlitBackfill] at h
      | list xs => simp [streamlitBackfill] at h
  refine ⟨?_, ?_, ?_, ?_⟩
  · intro name text raw lst h
    rcases hflask name text raw lst h with rfl | ⟨r, rfl⟩ <;> simp
  · intro name text raw lst hname h
    unfold flaskProcessOne at h
    rw [if_neg hname] at h
    by_cases h2 : text = ""
    · rw [if_pos h2] at h
      obtain rfl : ([] : List PyVal) = lst := Except.ok.inj h
      simp [h2]
    rw [if_neg h2] at h
    simp only [h2, iff_true, ne_eq, not_false_eq_true]
    cases hjl : jsonLoads (flaskClean raw.data) with
    | error e =>
      rw [hjl] at h
      obtain rfl : [flaskPlaceholder name] = lst := Except.ok.inj h
      rfl
    | ok p =>
      rw [hjl] at h
      cases p with
      | dict flds =>
        simp only [flaskBackfill] at h
        obtain rfl : [PyVal.dict (fbFill flds name)] = lst := Except.ok.inj h
        rfl
      | null => simp [flaskBackfill] at h
      | bool b => simp [flaskBackfill] at h
      | int i => simp [flaskBackfill] at h
      | float w => simp [flaskBackfill] at h
      | str s => simp [flaskBackfill] at h
      | list xs => simp [flaskBackfill] at h
  · intro name text raw sz lst h
    rcases hstream name text raw sz lst h with rfl | ⟨r, rfl⟩ <;> simp
  · intro name text raw sz lst h1 h2 h
    unfold streamlitProcessOne at h
    rw [if_neg h1, if_neg (by simp [h2])] at h
    by_cases h3 : text = "" ∨ trimChars text.data = []
    · rw [if_pos h3] at h
      obtain rfl : ([] : List PyVal) = lst := Except.ok.inj h
      have htr : trimChars text.data = [] := by
        rcases h3 with h3 | h3
        · rw [h3]
          rfl
        · exact h3
      simp [htr]
    rw [if_neg h3] at h
    have htr : trimChars text.data ≠ [] := fun hh => h3 (Or.inr hh)
    simp only [htr, iff_true, ne_eq, not_false_eq_true]
    cases hjl : jsonLoads (clean_ai_json raw.data) with
    | error e =>
      rw [hjl] at h
      simp only [stPlaceholder, streamlitBackfill] at h
      obtain rfl : [PyVal.dict (stFill (stPlaceholderFields name) name)] = lst :=
        Except.ok.inj h
      rfl
    | ok p =>
      rw [hjl] at h
      cases p with
      | dict flds =>
        simp only [streamlitBackfill] at h
        obtain rfl : [PyVal.dict (stFill flds name)] = lst := Except.ok.inj h
        rfl
      | null => simp [streamlitBackfill] at h
      | bool b => simp [streamlitBackfill] at h
      | int i => simp [streamlitBackfill] at h
      | float w => simp [streamlitBackfill] at h
      | str s => simp [streamlitBackfill] at h
      | list xs => simp [streamlitBackfill] at h

/-- C6 witness: one record for non-empty text in the Flask front end, zero
records for blank text in the streamlit front end. -/
theorem c6_exactly_one_record_witness :
    ([PyVal.dict (fbFill [] "a.pdf")].length = 1 ↔ ("x" : String) ≠ "") ∧
    (([] : List PyVal).length = 1 ↔ trimChars (" " : String).data ≠ []) :=
  ⟨c6_exactly_one_record.2.1 "a.pdf" "x" "\x7b\x7d" [PyVal.dict (fbFill [] "a.pdf")]
      (by decide) rfl,
   c6_exactly_one_record.2.2.2 "a.pdf" " " "whatever" 3 [] (by decide) (by decide) rfl⟩

/-- C8 counterexample: a successfully parsed empty object gets no
`GlobalMatch` default in the Flask front end — the field is simply absent
from the produced record, not "N/A". -/
theorem c8_counterexample :
    flaskProcessOne "r3.pdf" "x" "\x7b\x7d" =
      .ok [.dict [("Name", .str "r3.pdf"), ("Filename", .str "r3.pdf"),
        ("MatchPercentage", .int 0)]] ∧
    dictGet [("Name", PyVal.str "r3.pdf"), ("Filename", PyVal.str "r3.pdf"),
      ("MatchPercentage", PyVal.int 0)] "GlobalMatch" = Option.none :=
  ⟨rfl, rfl⟩

/-- C8 (amended): the streamlit front end defaults exactly the five
optional fields to "N/A", "", [], [], "" respectively precisely when each is
absent, and preserves any present value (falsy included); the Flask front
end performs no defaulting at all for these fields — it leaves them exactly
as parsed (absent fields stay absent). -/
theorem c8_defaults_only_when_absent :
    (∀ (d : List (String × PyVal)) (name : String),
      dictGet (stFill d name) "GlobalMatch" =
        some ((dictGet d "GlobalMatch").getD (.str "N/A"))) ∧
    (∀ (d : List (String × PyVal)) (name : String),
      dictGet (stFill d name) "MarketTier" =
        some ((dictGet d "MarketTier").getD (.str ""))) ∧
    (∀ (d : List (String × PyVal)) (name : String),
      dictGet (stFill d name) "MatchedKeywords" =
        some ((dictGet d "MatchedKeywords").getD (.list []))) ∧
    (∀ (d : List (String × PyVal)) (name : String),
      dictGet (stFill d name) "MissingKeywords" =
        some ((dictGet d "MissingKeywords").getD (.list []))) ∧
    (∀ (d : List (String × PyVal)) (name : String),
      dictGet (stFill d name) "Summary" =
        some ((dictGet d "Summary").getD (.str ""))) ∧
    (∀ (d : List (String × PyVal)) (name key : String),
      key ≠ "Name" → key ≠ "Filename" → key ≠ "MatchPercentage" →
      dictGet (fbFill d name) key = dictGet d key) :=
  ⟨stFill_get_globalMatch, stFill_get_marketTier, stFill_get_matched,
   stFill_get_missing, stFill_get_summary, fbFill_get_ne⟩

/-- C8 witness: the Flask no-defaulting fact applied at the absent
`GlobalMatch` key of an empty parsed object. -/
theorem c8_defaults_witness :
    dictGet (fbFill [] "x.pdf") "GlobalMatch" = dictGet [] "GlobalMatch" :=
  c8_defaults_only_when_absent.2.2.2.2.2 [] "x.pdf" "GlobalMatch"
    (by decide) (by decide) (by decide)

/-- C9 counterexample: the streamlit front end does not reject a batch with
an empty job description — it warns and processes the files, here producing
a ranked record rather than short-circuiting. -/
theorem c9_counterexample :
    streamlitRun "" [("a.txt", 3, "hi", "\x7b\"Name\": \"Bob\", \"MatchPercentage\": 60\x7d")] =
      .ranked [.dict [("Name", .str "Bob"), ("MatchPercentage", .int 60),
        ("Filename", .str "a.txt"), ("GlobalMatch", .str "N/A"), ("MarketTier", .str ""),
        ("MatchedKeywords", .list []), ("MissingKeywords", .list []),
        ("Summary", .str "")]] ∧
    (∀ rs : List PyVal, StResp.ranked rs ≠ .noFilesError) := by
  constructor
  · unfold streamlitRun
    rw [if_neg (by decide)]
    rw [show stLoop [("a.txt", 3, "hi",
        "\x7b\"Name\": \"Bob\", \"MatchPercentage\": 60\x7d")] =
      Except.ok [PyVal.dict [("Name", .str "Bob"), ("MatchPercentage", .int 60),
        ("Filename", .str "a.txt"), ("GlobalMatch", .str "N/A"), ("MarketTier", .str ""),
        ("MatchedKeywords", .list []), ("MissingKeywords", .list []),
        ("Summary", .str "")]] from rfl]
    show (if ([PyVal.dict [("Name", .str "Bob"), ("MatchPercentage", .int 60),
        ("Filename", .str "a.txt"), ("GlobalMatch", .str "N/A"), ("MarketTier", .str ""),
        ("MatchedKeywords", .list []), ("MissingKeywords", .list []),
        ("Summary", .str "")]] : List PyVal).isEmpty = true then StResp.noResults
      else .ranked (rank [PyVal.dict [("Name", .str "Bob"), ("MatchPercentage", .int 60),
        ("Filename", .str "a.txt"), ("GlobalMatch", .str "N/A"), ("MarketTier", .str ""),
        ("MatchedKeywords", .list []), ("MissingKeywords", .list []),
        ("Summary", .str "")]])) = _
    rw [if_neg (by decide)]
    unfold rank
    rw [List.mergeSort_singleton]
  · intro rs h
    exact StResp.noConfusion h

/-- C9 (amended): the Flask route rejects a batch missing either the job
description or the files before any per-file processing; the streamlit
handler short-circuits only when no files are selected — a missing job
description merely warns, and the run's outcome is independent of the job
description text (the raw model outputs being fixed inputs of the model). -/
theorem c9_missing_input_guards :
    (∀ (jd : Option String) (files : List (String × String × String)),
      jd.getD "" = "" ∨ files = [] → flaskAnalyze jd files = .badRequest) ∧
    (∀ jd : String, streamlitRun jd [] = .noFilesError) ∧
    (∀ (jd jd2 : String) (files : List (String × Nat × String × String)),
      streamlitRun jd files = streamlitRun jd2 files) := by
  refine ⟨?_, fun jd => rfl, fun jd jd2 files => rfl⟩
  intro jd files h
  unfold flaskAnalyze
  rw [if_pos h]

/-- C9 witness: the Flask guard at a concretely empty batch. -/
theorem c9_missing_input_witness :
    flaskAnalyze Option.none [] = .badRequest ∧ streamlitRun "" [] = .noFilesError :=
  ⟨c9_missing_input_guards.1 Option.none [] (Or.inl rfl),
   c9_missing_input_guards.2.1 ""⟩

/-! ## Evaluation checks of the embedded definitions -/

example : digitsToNat (natDigs 850) = 850 := by decide
example : padDigs 2 855 = ['5', '5'] := by decide
example : removeSeq "```json".data "```json\x7ba\x7d```".data = "\x7ba\x7d```".data := by decide
example : trimChars "  ab ".data = ['a', 'b'] := by decide
example : safe_int_percent (.str " 85% ") = .int 85 := rfl
example : safe_int_percent (.float (mkRat 171 2)) = .int 86 := rfl
example : safe_int_percent (.float (mkRat 169 2)) = .int 84 := rfl
example : safe_int_percent (.str "Top 5") = .int 0 := rfl
example : safe_int_percent (.int (-7)) = .int (-7) := rfl
example : safe_int_percent .null = .int 0 := rfl
example : flaskPct (some (.float (mkRat 171 2))) = 0 := by decide
example : flaskPct (some (.str "85%")) = 85 := by decide
example : flaskPct (some (.int 60)) = 60 := by decide
example : flaskPct (some (.int (-5))) = 0 := by decide
example : flaskPct Option.none = 0 := by decide
example : pyStrFloatChars (mkRat 171 2) = ['8', '5', '.', '5'] := by decide
example : pyStrFloatChars (mkRat 85 1) = ['8', '5', '.', '0'] := by decide
example : jsonLoads "\x7b\"MatchPercentage\": 60\x7d".data =
    .ok (.dict [("MatchPercentage", .int 60)]) := rfl
example : jsonLoads "\x7b\"a\": 85.5, \"b\": [1, \"x\"], \"c\": null\x7d".data =
    .ok (.dict [("a", .float (mkRat 171 2)), ("b", .list [.int 1, .str "x"]), ("c", .null)]) := rfl
example : jsonLoads "42".data = .ok (.int 42) := rfl
example : jsonLoads "not json".data = .error () := rfl
example : jsonLoads "".data = .error () := rfl
example : jsonLoads "\x7b\x7d".data = .ok (.dict []) := rfl
example : clean_ai_json "```json\n\x7b\"a\": 1\x7d\n```".data = "\x7b\"a\": 1\x7d".data := rfl
example : flaskClean "noise \x7b\"a\": 1\x7d trailing".data = "\x7b\"a\": 1\x7d".data := rfl
example : clean_ai_json "".data = "\x7b\x7d".data := rfl
example : flaskClean "42".data = "42".data := rfl
